import Mathlib

/-!
# Verification of the ytsum processing pipeline

A shallow embedding, over lists and records, of the parts of the `ytsum`
repository that its design specification talks about:

* `database.py` — the persistent store: channels, videos, transcripts,
  summaries, users, the Telegram queue and the run-history log, together
  with the query/insert operations the pipeline consumes.  Python strings
  are modelled as `List Char` (sequences of unicode scalar values); SQLite
  sessions are modelled by explicit state passing on a `DB` record; row
  autoincrement ids are explicit counters.
* The `json.dumps` / `json.loads` calls used for the JSON-in-text-column
  list fields (`RunHistory.errors`, `Summary.key_points`).  `json` is an
  external library; it is embedded here as a character-level printer and
  parser for the array-of-strings fragment the store actually uses.  The
  printer escapes `"`,  backslash and control characters exactly as
  CPython's encoder does (the raw, `ensure_ascii=False` spelling of
  non-ASCII characters, which `json.loads` accepts identically); the
  parser accepts JSON string arrays with the standard escapes.
* `scheduler.py` — `check_and_process` (the three-stage run cycle) and the
  scheduling loop.  Calls to the external YouTube, transcript and
  summarization clients, the possibility that client construction raises,
  and the possibility that a queue insert raises, are modelled by an
  oracle record `CycleOracle` supplied to the cycle; database operations
  themselves are modelled total.  Wall-clock time is modelled by a cycle
  timestamp `now` and an externally measured `duration`.
* `summarizer.py` — `_build_prompt` and its transcript truncation.
-/

/-- Python strings, as sequences of unicode scalar values. -/
abbrev PyStr := List Char

/-! ## The `json` library on string lists (external collaborator)

`Summary.set_key_points` / `RunHistory.set_errors` store `json.dumps(list)`
in a text column; the getters run `json.loads` on it. -/

/-- Lower-case hexadecimal digit, as CPython's encoder emits in `\u00XX`. -/
def hexDigitChar (n : Nat) : Char :=
  if n < 10 then Char.ofNat (48 + n) else Char.ofNat (87 + n)

/-- How `json.dumps` renders one character inside a string literal:
`"`, `\`, and the short control escapes get two-character escapes, the
remaining control characters get `\u00XX`, everything else is emitted
as itself. -/
def escapeChar (c : Char) : List Char :=
  if c = '"' then ['\\', '"']
  else if c = '\\' then ['\\', '\\']
  else if c = '\n' then ['\\', 'n']
  else if c = '\t' then ['\\', 't']
  else if c = '\r' then ['\\', 'r']
  else if c.toNat = 8 then ['\\', 'b']
  else if c.toNat = 12 then ['\\', 'f']
  else if c.toNat < 32 then
    ['\\', 'u', '0', '0', hexDigitChar (c.toNat / 16), hexDigitChar (c.toNat % 16)]
  else [c]

/-- A rendered JSON string literal: quote, escaped body, quote. -/
def encodeJString (s : PyStr) : List Char :=
  '"' :: (s.flatMap escapeChar ++ ['"'])

/-- The elements of a dumped array, joined by `", "` (the default
`json.dumps` item separator). -/
def dumpsItems : List PyStr → List Char
  | [] => []
  | [s] => encodeJString s
  | s :: rest => encodeJString s ++ ',' :: ' ' :: dumpsItems rest

/-- `json.dumps` on a list of strings. -/
def dumpsStringList (l : List PyStr) : List Char :=
  '[' :: (dumpsItems l ++ [']'])

/-- The two-character escapes `json.loads` accepts. -/
def unescapeChar (e : Char) : Option Char :=
  if e = '"' then some '"'
  else if e = '\\' then some '\\'
  else if e = '/' then some '/'
  else if e = 'n' then some '\n'
  else if e = 't' then some '\t'
  else if e = 'r' then some '\r'
  else if e = 'b' then some (Char.ofNat 8)
  else if e = 'f' then some (Char.ofNat 12)
  else none

/-- Value of one hexadecimal digit. -/
def hexVal (c : Char) : Option Nat :=
  if 48 ≤ c.toNat && c.toNat ≤ 57 then some (c.toNat - 48)
  else if 97 ≤ c.toNat && c.toNat ≤ 102 then some (c.toNat - 87)
  else if 65 ≤ c.toNat && c.toNat ≤ 70 then some (c.toNat - 55)
  else none

/-- Parse the body of a JSON string literal (the opening quote already
consumed), returning the decoded characters and the remaining input.
Raw control characters are rejected, as by `json.loads` in its default
strict mode. -/
def parseJString : List Char → Option (PyStr × List Char)
  | [] => none
  | c :: rest =>
    if c = '"' then some ([], rest)
    else if c = '\\' then
      match rest with
      | [] => none
      | e :: rest2 =>
        if e = 'u' then
          match rest2 with
          | a :: b :: c2 :: d :: rest3 =>
            match hexVal a, hexVal b, hexVal c2, hexVal d with
            | some va, some vb, some vc, some vd =>
              (parseJString rest3).map
                (fun p => (Char.ofNat (((va * 16 + vb) * 16 + vc) * 16 + vd) :: p.1, p.2))
            | _, _, _, _ => none
          | _ => none
        else
          match unescapeChar e with
          | some ch => (parseJString rest2).map (fun p => (ch :: p.1, p.2))
          | none => none
    else if c.toNat < 32 then none
    else (parseJString rest).map (fun p => (c :: p.1, p.2))

/-- Drop the space characters `json.loads` skips between tokens. -/
def skipSpaces (xs : List Char) : List Char :=
  xs.dropWhile (fun c => c = ' ')

/-- Parse the elements of a non-empty JSON string array, positioned at the
first element; fuel bounds the recursion by the number of elements. -/
def parseItems : Nat → List Char → Option (List PyStr × List Char)
  | 0, _ => none
  | Nat.succ fuel, xs =>
    match xs with
    | '"' :: rest =>
      match parseJString rest with
      | none => none
      | some (s, rest2) =>
        match skipSpaces rest2 with
        | [] => none
        | c :: rest3 =>
          if c = ',' then
            match parseItems fuel (skipSpaces rest3) with
            | some (l, r) => some (s :: l, r)
            | none => none
          else if c = ']' then some ([s], rest3)
          else none
    | _ => none

/-- `json.loads` on input expected to be a JSON array of strings:
`none` models the call raising on malformed input. -/
def loadsStringList (xs : List Char) : Option (List PyStr) :=
  match skipSpaces xs with
  | [] => none
  | c :: rest =>
    if c = '[' then
      match skipSpaces rest with
      | [] => none
      | d :: rest2 =>
        if d = ']' then (if skipSpaces rest2 = [] then some [] else none)
        else
          match parseItems (xs.length + 1) (d :: rest2) with
          | some (l, r) => if skipSpaces r = [] then some l else none
          | none => none
    else none

/-! ## Data model (`database.py`)

One record per SQLAlchemy model, keeping the column names; only the
columns the pipeline reads or writes are carried.  Timestamps are `Nat`. -/

/-- `YouTubeChannel` (table `youtube_channels`). -/
structure ChannelRec where
  id : Nat
  channel_id : PyStr
  channel_name : PyStr
  channel_url : PyStr
  last_checked : Option Nat
deriving Repr, DecidableEq

/-- `Video` (table `videos`); `failed_attempts` defaults to 0. -/
structure VideoRec where
  id : Nat
  video_id : PyStr
  youtube_channel_id : Nat
  title : PyStr
  published_at : Nat
  duration : Option PyStr
  url : PyStr
  failed_attempts : Nat
deriving Repr, DecidableEq

/-- `Transcript` (table `transcripts`), 1:1 with `Video` via `video_id`. -/
structure TranscriptRec where
  id : Nat
  video_id : Nat
  transcript_text : PyStr
  language : Option PyStr
deriving Repr, DecidableEq

/-- `Summary` (table `summaries`); `key_points` holds the JSON text. -/
structure SummaryRec where
  id : Nat
  video_id : Nat
  summary_text : PyStr
  key_points : Option PyStr
  model_used : PyStr
deriving Repr, DecidableEq

/-- `RunHistory` (table `run_history`); `errors` holds the JSON text. -/
structure RunHistoryRec where
  id : Nat
  videos_found : Nat
  videos_processed : Nat
  errors : Option PyStr
  success : Bool
  duration_seconds : Option Int
deriving Repr, DecidableEq

/-- `User` (table `users`), restricted to the notification columns. -/
structure UserRec where
  id : Nat
  username : PyStr
  telegram_chat_id : Option PyStr
  telegram_enabled : Bool
deriving Repr, DecidableEq

/-- `TelegramQueue` (table `telegram_queue`). -/
structure QueueRec where
  id : Nat
  user_id : Option Nat
  chat_id : PyStr
  message : PyStr
  status : PyStr
  retry_count : Nat
deriving Repr, DecidableEq

/-- The SQLite database: one list per table (in insertion order) plus the
`user_channels` junction table and per-table autoincrement counters. -/
structure DB where
  channels : List ChannelRec
  videos : List VideoRec
  transcripts : List TranscriptRec
  summaries : List SummaryRec
  users : List UserRec
  user_channels : List (Nat × Nat)
  queue : List QueueRec
  run_history : List RunHistoryRec
  next_video_id : Nat
  next_transcript_id : Nat
  next_summary_id : Nat
  next_queue_id : Nat
  next_run_id : Nat
deriving Repr, DecidableEq

/-! ## Store operations (`Database` methods) -/

/-- `RunHistory.get_errors`: `json.loads` of the text column when it is
truthy, the empty list when it is `None` or empty; `none` models the
`loads` call raising. -/
def runHistoryGetErrors (r : RunHistoryRec) : Option (List PyStr) :=
  match r.errors with
  | some (c :: cs) => loadsStringList (c :: cs)
  | _ => some []

/-- `RunHistory.set_errors`: store `json.dumps(error_list)`. -/
def runHistorySetErrors (r : RunHistoryRec) (error_list : List PyStr) : RunHistoryRec :=
  { r with errors := some (dumpsStringList error_list) }

/-- `Summary.get_key_points`: `json.loads` of the text column when it is
truthy, else the empty list. -/
def summaryGetKeyPoints (s : SummaryRec) : Option (List PyStr) :=
  match s.key_points with
  | some (c :: cs) => loadsStringList (c :: cs)
  | _ => some []

/-- `Summary.set_key_points`: store `json.dumps(points)`. -/
def summarySetKeyPoints (s : SummaryRec) (points : List PyStr) : SummaryRec :=
  { s with key_points := some (dumpsStringList points) }

/-- `Database.add_video`: a no-op returning `None` when a video with this
external `video_id` already exists, otherwise insert a fresh row with
`failed_attempts = 0` and return it. -/
def add_video (db : DB) (video_id : PyStr) (youtube_channel_id : Nat) (title : PyStr)
    (published_at : Nat) (url : PyStr) (duration : Option PyStr) :
    Option VideoRec × DB :=
  if db.videos.any (fun v => v.video_id == video_id) then (none, db)
  else
    let v : VideoRec :=
      { id := db.next_video_id, video_id := video_id,
        youtube_channel_id := youtube_channel_id, title := title,
        published_at := published_at, duration := duration, url := url,
        failed_attempts := 0 }
    (some v, { db with videos := db.videos ++ [v],
                       next_video_id := db.next_video_id + 1 })

/-- `Database.get_videos_without_transcripts`: videos with no transcript
row and `failed_attempts` strictly below the cap (default 10). -/
def get_videos_without_transcripts (db : DB) (max_failed_attempts : Nat := 10) :
    List VideoRec :=
  db.videos.filter (fun v =>
    !(db.transcripts.any (fun t => t.video_id == v.id)) &&
      decide (v.failed_attempts < max_failed_attempts))

/-- The row update `video.failed_attempts = (video.failed_attempts or 0) + 1`,
applied to the matching row and leaving the rest alone. -/
def bumpIfMatch (video_id : Nat) (w : VideoRec) : VideoRec :=
  if w.id == video_id then { w with failed_attempts := w.failed_attempts + 1 } else w

/-- `Database.increment_video_failed_attempts`: add one to the row's
counter and return the new count; 0 when the row id is absent. -/
def increment_video_failed_attempts (db : DB) (video_id : Nat) : Nat × DB :=
  match db.videos.find? (fun v => v.id == video_id) with
  | none => (0, db)
  | some v =>
    (v.failed_attempts + 1,
     { db with videos := db.videos.map (bumpIfMatch video_id) })

/-- `Database.get_videos_without_summaries`: videos that have a transcript
row but no summary row. -/
def get_videos_without_summaries (db : DB) : List VideoRec :=
  db.videos.filter (fun v =>
    db.transcripts.any (fun t => t.video_id == v.id) &&
      !(db.summaries.any (fun s => s.video_id == v.id)))

/-- `Database.add_transcript`. -/
def add_transcript (db : DB) (video_id : Nat) (transcript_text : PyStr)
    (language : Option PyStr) : DB :=
  { db with
    transcripts := db.transcripts ++
      [{ id := db.next_transcript_id, video_id := video_id,
         transcript_text := transcript_text, language := language }],
    next_transcript_id := db.next_transcript_id + 1 }

/-- `Database.add_summary`: the row is created and `set_key_points` is
applied before the single commit, so the row lands with its serialized
key points. -/
def add_summary (db : DB) (video_id : Nat) (summary_text : PyStr)
    (key_points : List PyStr) (model_used : PyStr) : DB :=
  { db with
    summaries := db.summaries ++
      [summarySetKeyPoints
        { id := db.next_summary_id, video_id := video_id,
          summary_text := summary_text, key_points := none,
          model_used := model_used } key_points],
    next_summary_id := db.next_summary_id + 1 }

/-- `Database.update_channel_check_time`: set `last_checked` to the
current time on the row with this primary key. -/
def update_channel_check_time (db : DB) (id : Nat) (now : Nat) : DB :=
  { db with channels := db.channels.map (fun c =>
      if c.id == id then { c with last_checked := some now } else c) }

/-- `Database.get_users_for_telegram_notification`: users joined through
`user_channels` to this channel, with `telegram_enabled` and a non-NULL
`telegram_chat_id`. -/
def get_users_for_telegram_notification (db : DB) (youtube_channel_id : Nat) :
    List UserRec :=
  db.users.filter (fun u =>
    u.telegram_enabled && u.telegram_chat_id.isSome &&
      db.user_channels.any (fun p => p.1 == u.id && p.2 == youtube_channel_id))

/-- `Database.add_telegram_message_to_queue`: append a pending item with
`retry_count = 0` (the scheduler passes no `user_id`). -/
def add_telegram_message_to_queue (db : DB) (chat_id message : PyStr) : DB :=
  { db with
    queue := db.queue ++
      [{ id := db.next_queue_id, user_id := none, chat_id := chat_id,
         message := message, status := "pending".data, retry_count := 0 }],
    next_queue_id := db.next_queue_id + 1 }

/-- `Database.add_run_history`: append one row; `set_errors` runs only
when the passed list is truthy (neither `None` nor empty). -/
def add_run_history (db : DB) (videos_found videos_processed : Nat)
    (errors : Option (List PyStr)) (success : Bool)
    (duration_seconds : Option Int) : DB :=
  let base : RunHistoryRec :=
    { id := db.next_run_id, videos_found := videos_found,
      videos_processed := videos_processed, errors := none,
      success := success, duration_seconds := duration_seconds }
  let row :=
    match errors with
    | some (e :: es) => runHistorySetErrors base (e :: es)
    | _ => base
  { db with run_history := db.run_history ++ [row],
            next_run_id := db.next_run_id + 1 }

/-! ## Derived views used in theorem statements -/

/-- The video row with a given primary key. -/
def findVideo (db : DB) (id : Nat) : Option VideoRec :=
  db.videos.find? (fun v => v.id == id)

/-- The `failed_attempts` column of a video row. -/
def failedAttemptsOf (db : DB) (id : Nat) : Option Nat :=
  (findVideo db id).map (·.failed_attempts)

/-- Whether a transcript row exists for a video. -/
def hasTranscriptFor (db : DB) (id : Nat) : Bool :=
  db.transcripts.any (fun t => t.video_id == id)

/-- The transcript text attached to a video (`video.transcript.transcript_text`). -/
def transcriptTextOf (db : DB) (id : Nat) : Option PyStr :=
  (db.transcripts.find? (fun t => t.video_id == id)).map (·.transcript_text)

/-- Number of summary rows for a video. -/
def summaryCountFor (db : DB) (id : Nat) : Nat :=
  db.summaries.countP (fun s => s.video_id == id)

/-! ## Error and message strings built by `check_and_process` -/

/-- `f"Error checking channel {channel.channel_name}: {str(e)}"`. -/
def errMsgChannel (channel_name e : PyStr) : PyStr :=
  "Error checking channel ".data ++ channel_name ++ ": ".data ++ e

/-- `f"No transcript available for: {video.title}"`. -/
def noTranscriptMsg (title : PyStr) : PyStr :=
  "No transcript available for: ".data ++ title

/-- `f"Error fetching transcript for {video.title}: {str(e)}"`. -/
def transcriptErrMsg (title e : PyStr) : PyStr :=
  "Error fetching transcript for ".data ++ title ++ ": ".data ++ e

/-- `f"Error summarizing {video.title}: {str(e)}"`. -/
def summErrMsg (title e : PyStr) : PyStr :=
  "Error summarizing ".data ++ title ++ ": ".data ++ e

/-- `f"Fatal error in check_and_process: {str(e)}"`. -/
def fatalMsg (e : PyStr) : PyStr :=
  "Fatal error in check_and_process: ".data ++ e

/-- `video.duration if video.duration else "N/A"` — `None` and the empty
string are both falsy. -/
def durationStr : Option PyStr → PyStr
  | some (c :: cs) => c :: cs
  | _ => "N/A".data

/-- The Telegram notification text rendered per video (identical for every
subscriber of the video's channel). -/
def telegramMsg (v : VideoRec) (channel_name : PyStr) : PyStr :=
  "🎥 <b>".data ++ v.title ++ "</b>\n📺 ".data ++ channel_name ++
    "\n⏱ ".data ++ durationStr v.duration ++
    "\n\n🔗 <a href='".data ++ v.url ++ "'>Watch on YouTube</a>\n📝 <a href='/summary/".data ++
    (toString v.id).data ++ "'>View Summary</a>".data

/-! ## Prompt construction (`Summarizer._build_prompt`) -/

/-- The marker appended to an over-long transcript. -/
def truncationMarker : PyStr := "... [truncated]".data

/-- The transcript-length budget (`max_transcript_length`). -/
def maxTranscriptLength : Nat := 15000

/-- The transcript text that ends up embedded in the prompt: truncated to
the budget with the marker appended when the input is strictly longer,
otherwise passed through unchanged. -/
def truncatedForPrompt (transcript : PyStr) : PyStr :=
  if maxTranscriptLength < transcript.length then
    transcript.take maxTranscriptLength ++ truncationMarker
  else transcript

/-- Prompt text before the video title. -/
def promptPart1 : PyStr :=
  "Please analyze this YouTube video transcript and provide a summary.\n\nVideo Title: ".data

/-- Prompt text between the title and the transcript. -/
def promptPart2 : PyStr := "\n\nTranscript:\n".data

/-- Prompt text between the transcript and `max_length`. -/
def promptPart3 : PyStr :=
  "\n\nPlease provide:\n1. A concise summary (maximum ".data

/-- Prompt text between `max_length` and `max_key_points`. -/
def promptPart4 : PyStr :=
  " words) that captures the main message and important details\n2. A list of ".data

/-- Prompt text after `max_key_points`. -/
def promptPart5 : PyStr :=
  " key takeaways or main points\n\nFormat your response as JSON with this structure:\n\x7b\n    \"summary\": \"Your summary here...\",\n    \"key_points\": [\n        \"First key point\",\n        \"Second key point\",\n        ...\n    ]\n\x7d\n\nFocus on:\n- Main topics and themes\n- Important facts, statistics, or insights\n- Actionable takeaways\n- Conclusions or recommendations\n\nKeep the language clear and concise.".data

/-- `Summarizer._build_prompt`: the f-string with the truncated transcript
and the numeric parameters interpolated. -/
def buildPrompt (transcript video_title : PyStr) (max_length max_key_points : Nat) : PyStr :=
  promptPart1 ++ video_title ++ promptPart2 ++ truncatedForPrompt transcript ++
    promptPart3 ++ (toString max_length).data ++ promptPart4 ++
    (toString max_key_points).data ++ promptPart5

/-! ## The run cycle (`check_and_process`)

External collaborators are an oracle: each call site in the Python code
consults the corresponding field.  `init_result` covers the client
construction at the top of the `try` block (the only statements there not
already guarded by an inner handler); a `transcript_raised` outcome covers
any exception escaping one stage-2 loop body; `enqueue_raises` covers an
exception from one queue insert. -/

/-- Video metadata returned by `YouTubeClient.get_recent_videos`. -/
structure VideoData where
  id : PyStr
  title : PyStr
  published_at : Nat
  url : PyStr
  duration : Option PyStr
deriving Repr, DecidableEq

/-- Outcome of one stage-2 loop body's external work, keyed by the
external video id: transcript text with language, a falsy return
(transcript unavailable), or an exception with message. -/
inductive TranscriptOutcome where
  | fetched (text language : PyStr)
  | unavailable
  | raised (msg : PyStr)
deriving Repr, DecidableEq

/-- The cycle's view of the outside world. -/
structure CycleOracle where
  init_result : Except PyStr Unit
  fetch_videos : PyStr → Except PyStr (List VideoData)
  transcript_result : PyStr → TranscriptOutcome
  summarize : PyStr → PyStr → Except PyStr (PyStr × List PyStr)
  enqueue_raises : PyStr → Bool

/-- The aggregate result dictionary `check_and_process` returns. -/
structure RunResult where
  videos_found : Nat
  videos_processed : Nat
  errors : List PyStr
  duration : Int
deriving Repr, DecidableEq

/-- Stage 1, inner loop: insert each returned video, counting only the
insertions that actually created a row. -/
def addVideosLoop (db : DB) (channel_pk : Nat) :
    List VideoData → Nat → DB × Nat
  | [], found => (db, found)
  | vd :: rest, found =>
    let r := add_video db vd.id channel_pk vd.title vd.published_at vd.url vd.duration
    addVideosLoop r.2 channel_pk rest (if r.1.isSome then found + 1 else found)

/-- Stage 1, outer loop over the channel snapshot: fetch, insert, update
`last_checked`; a per-channel exception appends one error and moves on
(skipping that channel's timestamp update). -/
def stage1Go (o : CycleOracle) (now : Nat) :
    List ChannelRec → DB → List PyStr → Nat → DB × List PyStr × Nat
  | [], db, errors, found => (db, errors, found)
  | c :: rest, db, errors, found =>
    match o.fetch_videos c.channel_id with
    | .error e =>
      stage1Go o now rest db (errors ++ [errMsgChannel c.channel_name e]) found
    | .ok vds =>
      let r := addVideosLoop db c.id vds found
      stage1Go o now rest (update_channel_check_time r.1 c.id now) errors r.2

/-- Stage 2 over the (already truncated) selection snapshot: persist a
fetched transcript; on a falsy return or an exception append the branch's
error string and increment `failed_attempts`. -/
def stage2Go (o : CycleOracle) :
    List VideoRec → DB → List PyStr → DB × List PyStr
  | [], db, errors => (db, errors)
  | v :: rest, db, errors =>
    match o.transcript_result v.video_id with
    | .fetched text lang =>
      stage2Go o rest (add_transcript db v.id text (some lang)) errors
    | .unavailable =>
      stage2Go o rest (increment_video_failed_attempts db v.id).2
        (errors ++ [noTranscriptMsg v.title])
    | .raised e =>
      stage2Go o rest (increment_video_failed_attempts db v.id).2
        (errors ++ [transcriptErrMsg v.title e])

/-- The per-video notification pass: one queue insert per user with a
truthy `telegram_chat_id`; an exception from one insert aborts the whole
pass (the surrounding handler catches it outside the user loop), leaving
earlier inserts in place and skipping the remaining users. -/
def notifyUsers (o : CycleOracle) (msg : PyStr) :
    List UserRec → DB → DB
  | [], db => db
  | u :: rest, db =>
    match u.telegram_chat_id with
    | some (c :: cs) =>
      if o.enqueue_raises (c :: cs) then db
      else notifyUsers o msg rest (add_telegram_message_to_queue db (c :: cs) msg)
    | _ => notifyUsers o msg rest db

/-- The notification block for one summarized video: enumerate the
channel's notifiable users and enqueue; if the eagerly-loaded channel row
is missing the attribute access raises before any insert and the handler
swallows it. -/
def notifyForVideo (o : CycleOracle) (db : DB) (v : VideoRec) : DB :=
  match db.channels.find? (fun c => c.id == v.youtube_channel_id) with
  | none => db
  | some ch =>
    notifyUsers o (telegramMsg v ch.channel_name)
      (get_users_for_telegram_notification db v.youtube_channel_id) db

/-- Stage 3 over the (already truncated) selection snapshot: summarize,
persist the summary, count the video as processed, then run the
best-effort notification pass; a summarization failure appends one error
string and persists nothing for that video. -/
def stage3Go (o : CycleOracle) (model : PyStr) :
    List VideoRec → DB → List PyStr → Nat → DB × List PyStr × Nat
  | [], db, errors, processed => (db, errors, processed)
  | v :: rest, db, errors, processed =>
    match transcriptTextOf db v.id with
    | none =>
      stage3Go o model rest db
        (errors ++ [summErrMsg v.title "'NoneType' object has no attribute 'transcript_text'".data])
        processed
    | some text =>
      match o.summarize text v.title with
      | .error e =>
        stage3Go o model rest db (errors ++ [summErrMsg v.title e]) processed
      | .ok (summary_text, key_points) =>
        let db1 := add_summary db v.id summary_text key_points model
        stage3Go o model rest (notifyForVideo o db1 v) errors (processed + 1)

/-- `check_and_process`: the three stages inside one top-level handler,
then — outside the handler, unconditionally — one appended `RunHistory`
row and the result dictionary.  `success` is `len(errors) == 0`; the
`errors` argument is passed as `None` when the list is empty. -/
def cycleBody (o : CycleOracle) (model : PyStr) (db : DB) (now : Nat) :
    DB × List PyStr × Nat × Nat :=
  match o.init_result with
  | .error e => (db, [fatalMsg e], 0, 0)
  | .ok _ =>
    let r1 := stage1Go o now db.channels db [] 0
    let sel2 := (get_videos_without_transcripts r1.1).take 50
    let r2 := stage2Go o sel2 r1.1 r1.2.1
    let sel3 := (get_videos_without_summaries r2.1).take 30
    let r3 := stage3Go o model sel3 r2.1 r2.2 0
    (r3.1, r3.2.1, r1.2.2, r3.2.2)

def checkAndProcess (o : CycleOracle) (model : PyStr) (db : DB)
    (now : Nat) (duration : Int) : RunResult × DB :=
  let body := cycleBody o model db now
  let db1 := body.1
  let errors := body.2.1
  let found := body.2.2.1
  let processed := body.2.2.2
  let db2 := add_run_history db1 found processed
    (if errors.isEmpty then none else some errors) errors.isEmpty (some duration)
  ({ videos_found := found, videos_processed := processed,
     errors := errors, duration := duration }, db2)

/-! ## The scheduling loop (`run_scheduler`) -/

/-- The fixed schedule interval: `schedule.every(30).minutes`. -/
def scheduleIntervalMinutes : Nat := 30

/-- The startup backlog check: run a cycle immediately when the
transcript-but-no-summary selection is non-empty. -/
def runsImmediatelyAtStartup (db : DB) : Bool :=
  !(get_videos_without_summaries db).isEmpty

/-- What one pass of the `while True` body observes: a normal tick check,
an exception, or a `KeyboardInterrupt`. -/
inductive LoopEvent where
  | tick
  | fault (msg : PyStr)
  | interrupt
deriving Repr, DecidableEq

/-- What the loop does next: sleep and continue, or stop. -/
inductive LoopStep where
  | continueAfter (sleepSeconds : Nat)
  | stop
deriving Repr, DecidableEq

/-- One pass of the scheduler loop: 60 s tick sleep on the normal path,
a 300 s cooldown after a caught exception, `break` only on
`KeyboardInterrupt`. -/
def schedulerLoopStep : LoopEvent → LoopStep
  | .tick => .continueAfter 60
  | .fault _ => .continueAfter 300
  | .interrupt => .stop

/-! ## Field-preservation lemmas for the store operations -/

theorem add_video_untouched (db : DB) (vid : PyStr) (cpk : Nat) (t : PyStr)
    (p : Nat) (u : PyStr) (d : Option PyStr) :
    (add_video db vid cpk t p u d).2.channels = db.channels ∧
    (add_video db vid cpk t p u d).2.transcripts = db.transcripts ∧
    (add_video db vid cpk t p u d).2.summaries = db.summaries ∧
    (add_video db vid cpk t p u d).2.users = db.users ∧
    (add_video db vid cpk t p u d).2.user_channels = db.user_channels ∧
    (add_video db vid cpk t p u d).2.queue = db.queue ∧
    (add_video db vid cpk t p u d).2.run_history = db.run_history := by
  unfold add_video
  split <;> simp

theorem update_channel_check_time_untouched (db : DB) (id now : Nat) :
    (update_channel_check_time db id now).videos = db.videos ∧
    (update_channel_check_time db id now).transcripts = db.transcripts ∧
    (update_channel_check_time db id now).summaries = db.summaries ∧
    (update_channel_check_time db id now).users = db.users ∧
    (update_channel_check_time db id now).user_channels = db.user_channels ∧
    (update_channel_check_time db id now).queue = db.queue ∧
    (update_channel_check_time db id now).run_history = db.run_history := by
  unfold update_channel_check_time
  simp

theorem increment_untouched (db : DB) (id : Nat) :
    (increment_video_failed_attempts db id).2.channels = db.channels ∧
    (increment_video_failed_attempts db id).2.transcripts = db.transcripts ∧
    (increment_video_failed_attempts db id).2.summaries = db.summaries ∧
    (increment_video_failed_attempts db id).2.users = db.users ∧
    (increment_video_failed_attempts db id).2.user_channels = db.user_channels ∧
    (increment_video_failed_attempts db id).2.queue = db.queue ∧
    (increment_video_failed_attempts db id).2.run_history = db.run_history := by
  unfold increment_video_failed_attempts
  split <;> simp

theorem add_transcript_untouched (db : DB) (id : Nat) (tx : PyStr) (lg : Option PyStr) :
    (add_transcript db id tx lg).channels = db.channels ∧
    (add_transcript db id tx lg).videos = db.videos ∧
    (add_transcript db id tx lg).summaries = db.summaries ∧
    (add_transcript db id tx lg).users = db.users ∧
    (add_transcript db id tx lg).user_channels = db.user_channels ∧
    (add_transcript db id tx lg).queue = db.queue ∧
    (add_transcript db id tx lg).run_history = db.run_history := by
  unfold add_transcript
  simp

theorem add_summary_untouched (db : DB) (id : Nat) (st : PyStr) (kp : List PyStr)
    (m : PyStr) :
    (add_summary db id st kp m).channels = db.channels ∧
    (add_summary db id st kp m).videos = db.videos ∧
    (add_summary db id st kp m).transcripts = db.transcripts ∧
    (add_summary db id st kp m).users = db.users ∧
    (add_summary db id st kp m).user_channels = db.user_channels ∧
    (add_summary db id st kp m).queue = db.queue ∧
    (add_summary db id st kp m).run_history = db.run_history := by
  unfold add_summary
  simp

theorem add_queue_untouched (db : DB) (cid msg : PyStr) :
    (add_telegram_message_to_queue db cid msg).channels = db.channels ∧
    (add_telegram_message_to_queue db cid msg).videos = db.videos ∧
    (add_telegram_message_to_queue db cid msg).transcripts = db.transcripts ∧
    (add_telegram_message_to_queue db cid msg).summaries = db.summaries ∧
    (add_telegram_message_to_queue db cid msg).users = db.users ∧
    (add_telegram_message_to_queue db cid msg).user_channels = db.user_channels ∧
    (add_telegram_message_to_queue db cid msg).run_history = db.run_history := by
  unfold add_telegram_message_to_queue
  simp

theorem add_run_history_untouched (db : DB) (f p : Nat) (e : Option (List PyStr))
    (s : Bool) (d : Option Int) :
    (add_run_history db f p e s d).channels = db.channels ∧
    (add_run_history db f p e s d).videos = db.videos ∧
    (add_run_history db f p e s d).transcripts = db.transcripts ∧
    (add_run_history db f p e s d).summaries = db.summaries ∧
    (add_run_history db f p e s d).users = db.users ∧
    (add_run_history db f p e s d).user_channels = db.user_channels ∧
    (add_run_history db f p e s d).queue = db.queue := by
  unfold add_run_history
  simp

/-! ## Stage-level preservation -/

theorem addVideosLoop_untouched (cpk : Nat) (l : List VideoData) :
    ∀ (db : DB) (found : Nat),
    (addVideosLoop db cpk l found).1.channels = db.channels ∧
    (addVideosLoop db cpk l found).1.transcripts = db.transcripts ∧
    (addVideosLoop db cpk l found).1.summaries = db.summaries ∧
    (addVideosLoop db cpk l found).1.users = db.users ∧
    (addVideosLoop db cpk l found).1.user_channels = db.user_channels ∧
    (addVideosLoop db cpk l found).1.queue = db.queue ∧
    (addVideosLoop db cpk l found).1.run_history = db.run_history := by
  induction l with
  | nil => intro db found; simp [addVideosLoop]
  | cons vd rest ih =>
    intro db found
    have h := add_video_untouched db vd.id cpk vd.title vd.published_at vd.url vd.duration
    simp only [addVideosLoop]
    refine ⟨?_, ?_, ?_, ?_, ?_, ?_, ?_⟩ <;>
      simp [(ih _ _).1, (ih _ _).2.1, (ih _ _).2.2.1, (ih _ _).2.2.2.1,
        (ih _ _).2.2.2.2.1, (ih _ _).2.2.2.2.2.1, (ih _ _).2.2.2.2.2.2,
        h.1, h.2.1, h.2.2.1, h.2.2.2.1, h.2.2.2.2.1, h.2.2.2.2.2.1, h.2.2.2.2.2.2]

theorem stage1Go_untouched (o : CycleOracle) (now : Nat) (l : List ChannelRec) :
    ∀ (db : DB) (errors : List PyStr) (found : Nat),
    (stage1Go o now l db errors found).1.transcripts = db.transcripts ∧
    (stage1Go o now l db errors found).1.summaries = db.summaries ∧
    (stage1Go o now l db errors found).1.users = db.users ∧
    (stage1Go o now l db errors found).1.user_channels = db.user_channels ∧
    (stage1Go o now l db errors found).1.queue = db.queue ∧
    (stage1Go o now l db errors found).1.run_history = db.run_history := by
  induction l with
  | nil => intro db errors found; simp [stage1Go]
  | cons c rest ih =>
    intro db errors found
    simp only [stage1Go]
    cases h : o.fetch_videos c.channel_id with
    | error e => exact ih _ _ _
    | ok vds =>
      have hadd := addVideosLoop_untouched c.id vds db found
      have hupd := update_channel_check_time_untouched (addVideosLoop db c.id vds found).1 c.id now
      have hrec := ih (update_channel_check_time (addVideosLoop db c.id vds found).1 c.id now) errors
        (addVideosLoop db c.id vds found).2
      refine ⟨?_, ?_, ?_, ?_, ?_, ?_⟩ <;> simp_all

theorem stage2Go_untouched (o : CycleOracle) (l : List VideoRec) :
    ∀ (db : DB) (errors : List PyStr),
    (stage2Go o l db errors).1.channels = db.channels ∧
    (stage2Go o l db errors).1.summaries = db.summaries ∧
    (stage2Go o l db errors).1.users = db.users ∧
    (stage2Go o l db errors).1.user_channels = db.user_channels ∧
    (stage2Go o l db errors).1.queue = db.queue ∧
    (stage2Go o l db errors).1.run_history = db.run_history := by
  induction l with
  | nil => intro db errors; simp [stage2Go]
  | cons v rest ih =>
    intro db errors
    simp only [stage2Go]
    cases h : o.transcript_result v.video_id with
    | fetched text lang =>
      have htr := add_transcript_untouched db v.id text (some lang)
      have hrec := ih (add_transcript db v.id text (some lang)) errors
      refine ⟨?_, ?_, ?_, ?_, ?_, ?_⟩ <;> simp_all
    | unavailable =>
      have hin := increment_untouched db v.id
      have hrec := ih (increment_video_failed_attempts db v.id).2 (errors ++ [noTranscriptMsg v.title])
      refine ⟨?_, ?_, ?_, ?_, ?_, ?_⟩ <;> simp_all
    | raised e =>
      have hin := increment_untouched db v.id
      have hrec := ih (increment_video_failed_attempts db v.id).2 (errors ++ [transcriptErrMsg v.title e])
      refine ⟨?_, ?_, ?_, ?_, ?_, ?_⟩ <;> simp_all

theorem notifyUsers_untouched (o : CycleOracle) (msg : PyStr) (l : List UserRec) :
    ∀ (db : DB),
    (notifyUsers o msg l db).channels = db.channels ∧
    (notifyUsers o msg l db).videos = db.videos ∧
    (notifyUsers o msg l db).transcripts = db.transcripts ∧
    (notifyUsers o msg l db).summaries = db.summaries ∧
    (notifyUsers o msg l db).users = db.users ∧
    (notifyUsers o msg l db).user_channels = db.user_channels ∧
    (notifyUsers o msg l db).run_history = db.run_history := by
  induction l with
  | nil => intro db; simp [notifyUsers]
  | cons u rest ih =>
    intro db
    simp only [notifyUsers]
    cases hch : u.telegram_chat_id with
    | none => exact ih db
    | some cid =>
      cases cid with
      | nil => exact ih db
      | cons c cs =>
        by_cases hr : o.enqueue_raises (c :: cs) = true
        · simp [hr]
        · have hq := add_queue_untouched db (c :: cs) msg
          have hrec := ih (add_telegram_message_to_queue db (c :: cs) msg)
          simp only [hr]
          refine ⟨?_, ?_, ?_, ?_, ?_, ?_, ?_⟩ <;> simp_all

theorem notifyForVideo_untouched (o : CycleOracle) (db : DB) (v : VideoRec) :
    (notifyForVideo o db v).channels = db.channels ∧
    (notifyForVideo o db v).videos = db.videos ∧
    (notifyForVideo o db v).transcripts = db.transcripts ∧
    (notifyForVideo o db v).summaries = db.summaries ∧
    (notifyForVideo o db v).users = db.users ∧
    (notifyForVideo o db v).user_channels = db.user_channels ∧
    (notifyForVideo o db v).run_history = db.run_history := by
  unfold notifyForVideo
  cases hc : db.channels.find? (fun c => c.id == v.youtube_channel_id) with
  | none => simp
  | some ch => exact notifyUsers_untouched o _ _ db

theorem stage3Go_untouched (o : CycleOracle) (model : PyStr) (l : List VideoRec) :
    ∀ (db : DB) (errors : List PyStr) (processed : Nat),
    (stage3Go o model l db errors processed).1.channels = db.channels ∧
    (stage3Go o model l db errors processed).1.videos = db.videos ∧
    (stage3Go o model l db errors processed).1.transcripts = db.transcripts ∧
    (stage3Go o model l db errors processed).1.users = db.users ∧
    (stage3Go o model l db errors processed).1.user_channels = db.user_channels ∧
    (stage3Go o model l db errors processed).1.run_history = db.run_history := by
  induction l with
  | nil => intro db errors processed; simp [stage3Go]
  | cons v rest ih =>
    intro db errors processed
    simp only [stage3Go]
    cases ht : transcriptTextOf db v.id with
    | none => dsimp only; exact ih _ _ _
    | some text =>
      dsimp only
      cases hs : o.summarize text v.title with
      | error e => dsimp only; exact ih _ _ _
      | ok r =>
        cases r with
        | mk summary_text key_points =>
          dsimp only
          have hsum := add_summary_untouched db v.id summary_text key_points model
          have hnot := notifyForVideo_untouched o (add_summary db v.id summary_text key_points model) v
          have hrec := ih (notifyForVideo o (add_summary db v.id summary_text key_points model) v) errors (processed + 1)
          refine ⟨?_, ?_, ?_, ?_, ?_, ?_⟩ <;> simp_all

theorem stage1Go_errors_extends (o : CycleOracle) (now : Nat) (l : List ChannelRec) :
    ∀ (db : DB) (errors : List PyStr) (found : Nat),
    ∃ d, (stage1Go o now l db errors found).2.1 = errors ++ d := by
  induction l with
  | nil => intro db errors found; exact ⟨[], by simp [stage1Go]⟩
  | cons c rest ih =>
    intro db errors found
    simp only [stage1Go]
    cases h : o.fetch_videos c.channel_id with
    | error e =>
      dsimp only
      obtain ⟨d, hd⟩ := ih db (errors ++ [errMsgChannel c.channel_name e]) found
      exact ⟨[errMsgChannel c.channel_name e] ++ d, by simp [hd]⟩
    | ok vds => dsimp only; exact ih _ _ _

theorem stage2Go_errors_extends (o : CycleOracle) (l : List VideoRec) :
    ∀ (db : DB) (errors : List PyStr),
    ∃ d, (stage2Go o l db errors).2 = errors ++ d := by
  induction l with
  | nil => intro db errors; exact ⟨[], by simp [stage2Go]⟩
  | cons v rest ih =>
    intro db errors
    simp only [stage2Go]
    cases h : o.transcript_result v.video_id with
    | fetched text lang => dsimp only; exact ih _ _
    | unavailable =>
      dsimp only
      obtain ⟨d, hd⟩ := ih (increment_video_failed_attempts db v.id).2 (errors ++ [noTranscriptMsg v.title])
      exact ⟨[noTranscriptMsg v.title] ++ d, by simp [hd]⟩
    | raised e =>
      dsimp only
      obtain ⟨d, hd⟩ := ih (increment_video_failed_attempts db v.id).2 (errors ++ [transcriptErrMsg v.title e])
      exact ⟨[transcriptErrMsg v.title e] ++ d, by simp [hd]⟩

theorem stage3Go_errors_extends (o : CycleOracle) (model : PyStr) (l : List VideoRec) :
    ∀ (db : DB) (errors : List PyStr) (processed : Nat),
    ∃ d, (stage3Go o model l db errors processed).2.1 = errors ++ d := by
  induction l with
  | nil => intro db errors processed; exact ⟨[], by simp [stage3Go]⟩
  | cons v rest ih =>
    intro db errors processed
    simp only [stage3Go]
    cases ht : transcriptTextOf db v.id with
    | none =>
      dsimp only
      obtain ⟨d, hd⟩ := ih db (errors ++ [summErrMsg v.title "'NoneType' object has no attribute 'transcript_text'".data]) processed
      exact ⟨[summErrMsg v.title "'NoneType' object has no attribute 'transcript_text'".data] ++ d, by simp [hd]⟩
    | some text =>
      dsimp only
      cases hs : o.summarize text v.title with
      | error e =>
        dsimp only
        obtain ⟨d, hd⟩ := ih db (errors ++ [summErrMsg v.title e]) processed
        exact ⟨[summErrMsg v.title e] ++ d, by simp [hd]⟩
      | ok r =>
        cases r with
        | mk summary_text key_points => dsimp only; exact ih _ _ _

/-! ## Row-count bookkeeping -/

theorem add_run_history_spec (db : DB) (f p : Nat) (e : Option (List PyStr))
    (s : Bool) (d : Option Int) :
    ∃ r, (add_run_history db f p e s d).run_history = db.run_history ++ [r] ∧
      r.videos_found = f ∧ r.videos_processed = p ∧ r.success = s ∧
      r.duration_seconds = d := by
  match e with
  | none =>
    exact ⟨{ id := db.next_run_id, videos_found := f, videos_processed := p,
             errors := none, success := s, duration_seconds := d },
           by simp [add_run_history], rfl, rfl, rfl, rfl⟩
  | some [] =>
    exact ⟨{ id := db.next_run_id, videos_found := f, videos_processed := p,
             errors := none, success := s, duration_seconds := d },
           by simp [add_run_history], rfl, rfl, rfl, rfl⟩
  | some (x :: xs) =>
    exact ⟨runHistorySetErrors
             { id := db.next_run_id, videos_found := f, videos_processed := p,
               errors := none, success := s, duration_seconds := d } (x :: xs),
           by simp [add_run_history], rfl, rfl, rfl, rfl⟩

theorem addVideosLoop_found (cpk : Nat) (l : List VideoData) :
    ∀ (db : DB) (found : Nat),
    (addVideosLoop db cpk l found).2 + db.videos.length =
      found + (addVideosLoop db cpk l found).1.videos.length := by
  induction l with
  | nil => intro db found; simp [addVideosLoop]
  | cons vd rest ih =>
    intro db found
    simp only [addVideosLoop]
    by_cases h : db.videos.any (fun v => v.video_id == vd.id)
    · have : add_video db vd.id cpk vd.title vd.published_at vd.url vd.duration = (none, db) := by
        unfold add_video; simp [h]
      rw [this]
      simpa using ih db found
    · have : (add_video db vd.id cpk vd.title vd.published_at vd.url vd.duration).1.isSome = true ∧
        (add_video db vd.id cpk vd.title vd.published_at vd.url vd.duration).2.videos.length =
          db.videos.length + 1 := by
        unfold add_video; simp [h]
      obtain ⟨h1, h2⟩ := this
      rw [h1, if_pos rfl]
      have := ih (add_video db vd.id cpk vd.title vd.published_at vd.url vd.duration).2 (found + 1)
      omega

theorem stage1Go_found (o : CycleOracle) (now : Nat) (l : List ChannelRec) :
    ∀ (db : DB) (errors : List PyStr) (found : Nat),
    (stage1Go o now l db errors found).2.2 + db.videos.length =
      found + (stage1Go o now l db errors found).1.videos.length := by
  induction l with
  | nil => intro db errors found; simp [stage1Go]
  | cons c rest ih =>
    intro db errors found
    simp only [stage1Go]
    cases h : o.fetch_videos c.channel_id with
    | error e => dsimp only; exact ih _ _ _
    | ok vds =>
      dsimp only
      have hadd := addVideosLoop_found c.id vds db found
      have hupd := (update_channel_check_time_untouched (addVideosLoop db c.id vds found).1 c.id now).1
      have hrec := ih (update_channel_check_time (addVideosLoop db c.id vds found).1 c.id now) errors
        (addVideosLoop db c.id vds found).2
      rw [hupd] at hrec
      omega

theorem increment_videos_length (db : DB) (id : Nat) :
    (increment_video_failed_attempts db id).2.videos.length = db.videos.length := by
  unfold increment_video_failed_attempts
  split <;> simp

theorem stage2Go_videos_length (o : CycleOracle) (l : List VideoRec) :
    ∀ (db : DB) (errors : List PyStr),
    (stage2Go o l db errors).1.videos.length = db.videos.length := by
  induction l with
  | nil => intro db errors; simp [stage2Go]
  | cons v rest ih =>
    intro db errors
    simp only [stage2Go]
    cases h : o.transcript_result v.video_id with
    | fetched text lang =>
      dsimp only
      rw [ih]
      exact congrArg List.length (add_transcript_untouched db v.id text (some lang)).2.1
    | unavailable => dsimp only; rw [ih, increment_videos_length]
    | raised e => dsimp only; rw [ih, increment_videos_length]

/-! ## Cycle-level bookkeeping -/

theorem cycleBody_run_history (o : CycleOracle) (model : PyStr) (db : DB) (now : Nat) :
    (cycleBody o model db now).1.run_history = db.run_history := by
  unfold cycleBody
  cases h : o.init_result with
  | error e => rfl
  | ok u =>
    dsimp only
    rw [(stage3Go_untouched o model _ _ _ _).2.2.2.2.2]
    rw [(stage2Go_untouched o _ _ _).2.2.2.2.2]
    exact (stage1Go_untouched o now db.channels db [] 0).2.2.2.2.2

theorem cycleBody_found_videos (o : CycleOracle) (model : PyStr) (db : DB) (now : Nat) :
    (cycleBody o model db now).2.2.1 + db.videos.length =
      (cycleBody o model db now).1.videos.length := by
  unfold cycleBody
  cases h : o.init_result with
  | error e => simp
  | ok u =>
    dsimp only
    rw [(stage3Go_untouched o model _ _ _ _).2.1]
    rw [stage2Go_videos_length]
    have := stage1Go_found o now db.channels db [] 0
    omega

theorem checkAndProcess_result_eq (o : CycleOracle) (model : PyStr) (db : DB)
    (now : Nat) (dur : Int) :
    (checkAndProcess o model db now dur).1 =
      { videos_found := (cycleBody o model db now).2.2.1,
        videos_processed := (cycleBody o model db now).2.2.2,
        errors := (cycleBody o model db now).2.1,
        duration := dur } ∧
    (checkAndProcess o model db now dur).2 =
      add_run_history (cycleBody o model db now).1
        (cycleBody o model db now).2.2.1 (cycleBody o model db now).2.2.2
        (if (cycleBody o model db now).2.1.isEmpty then none
         else some (cycleBody o model db now).2.1)
        (cycleBody o model db now).2.1.isEmpty (some dur) :=
  ⟨rfl, rfl⟩

/-- Claim C1: one run-cycle invocation is a total function of the state
and the client oracle (no exception reaches the caller — even client
construction failing is absorbed into the error list), it returns the
aggregate result record, it appends exactly one `RunHistory` row, and
that row's `success` flag is the emptiness of the collected error list,
with the row's counts and duration agreeing with the returned result. -/
theorem c1_run_cycle_total_and_recorded (o : CycleOracle) (model : PyStr) (db : DB)
    (now : Nat) (dur : Int) :
    (checkAndProcess o model db now dur).2.run_history.length = db.run_history.length + 1 ∧
    ∃ r, (checkAndProcess o model db now dur).2.run_history = db.run_history ++ [r] ∧
      r.success = (checkAndProcess o model db now dur).1.errors.isEmpty ∧
      r.videos_found = (checkAndProcess o model db now dur).1.videos_found ∧
      r.videos_processed = (checkAndProcess o model db now dur).1.videos_processed ∧
      r.duration_seconds = some dur ∧
      (checkAndProcess o model db now dur).1.duration = dur := by
  obtain ⟨hres, hdb⟩ := checkAndProcess_result_eq o model db now dur
  obtain ⟨r, hr, hf, hp, hs, hd⟩ :=
    add_run_history_spec (cycleBody o model db now).1
      ((cycleBody o model db now).2.2.1) ((cycleBody o model db now).2.2.2)
      (if (cycleBody o model db now).2.1.isEmpty then none
       else some (cycleBody o model db now).2.1)
      ((cycleBody o model db now).2.1.isEmpty) (some dur)
  rw [hdb, hr, cycleBody_run_history]
  constructor
  · simp
  · exact ⟨r, rfl, by rw [hs, hres], by rw [hf, hres], by rw [hp, hres], hd, by rw [hres]⟩

/-! ## Idempotent ingestion -/

theorem add_video_mem_after (db : DB) (vid : PyStr) (cpk : Nat) (t : PyStr)
    (p : Nat) (u : PyStr) (d : Option PyStr) :
    (add_video db vid cpk t p u d).2.videos.any (fun w => w.video_id == vid) = true := by
  unfold add_video
  by_cases h : db.videos.any (fun v => v.video_id == vid) = true
  · simp [h]
  · simp [h]

/-- Claim C2: inserting an external video id that is already present is a
no-op that returns `None`; in particular a second insertion of the same id
(immediately, or after any first attempt) changes nothing, and a db with
no row for that id ends with exactly one row for it after one or two
insertions.  The cycle's `videos_found` equals the number of video rows
the run actually created. -/
theorem c2_idempotent_ingestion :
    (∀ (db : DB) (vid : PyStr) (cpk : Nat) (t : PyStr) (p : Nat) (u : PyStr)
        (d : Option PyStr),
       db.videos.any (fun w => w.video_id == vid) = true →
       add_video db vid cpk t p u d = (none, db)) ∧
    (∀ (db : DB) (vid : PyStr) (cpk : Nat) (t : PyStr) (p : Nat) (u : PyStr)
        (d : Option PyStr) (cpk2 : Nat) (t2 : PyStr) (p2 : Nat) (u2 : PyStr)
        (d2 : Option PyStr),
       add_video (add_video db vid cpk t p u d).2 vid cpk2 t2 p2 u2 d2 =
         (none, (add_video db vid cpk t p u d).2)) ∧
    (∀ (db : DB) (vid : PyStr) (cpk : Nat) (t : PyStr) (p : Nat) (u : PyStr)
        (d : Option PyStr) (cpk2 : Nat) (t2 : PyStr) (p2 : Nat) (u2 : PyStr)
        (d2 : Option PyStr),
       db.videos.countP (fun w => w.video_id == vid) = 0 →
       (add_video db vid cpk t p u d).2.videos.countP (fun w => w.video_id == vid) = 1 ∧
       (add_video (add_video db vid cpk t p u d).2 vid cpk2 t2 p2 u2 d2).2.videos.countP
         (fun w => w.video_id == vid) = 1) ∧
    (∀ (o : CycleOracle) (model : PyStr) (db : DB) (now : Nat) (dur : Int),
       (checkAndProcess o model db now dur).1.videos_found + db.videos.length =
         (checkAndProcess o model db now dur).2.videos.length) := by
  have hnoop : ∀ (db : DB) (vid : PyStr) (cpk : Nat) (t : PyStr) (p : Nat) (u : PyStr)
      (d : Option PyStr),
      db.videos.any (fun w => w.video_id == vid) = true →
      add_video db vid cpk t p u d = (none, db) := by
    intro db vid cpk t p u d h
    unfold add_video
    simp [h]
  refine ⟨hnoop, ?_, ?_, ?_⟩
  · intro db vid cpk t p u d cpk2 t2 p2 u2 d2
    exact hnoop _ _ _ _ _ _ _ (add_video_mem_after db vid cpk t p u d)
  · intro db vid cpk t p u d cpk2 t2 p2 u2 d2 h0
    have hany : db.videos.any (fun w => w.video_id == vid) = false := by
      rw [List.any_eq_false]
      intro w hw
      have := List.countP_eq_zero.mp h0 w hw
      simpa using this
    have hfst : (add_video db vid cpk t p u d).2.videos.countP
        (fun w => w.video_id == vid) = 1 := by
      unfold add_video
      simp [hany, List.countP_append, h0, List.countP_cons]
    refine ⟨hfst, ?_⟩
    have := hnoop (add_video db vid cpk t p u d).2 vid cpk2 t2 p2 u2 d2
      (add_video_mem_after db vid cpk t p u d)
    rw [this]
    exact hfst
  · intro o model db now dur
    obtain ⟨hres, hdb⟩ := checkAndProcess_result_eq o model db now dur
    rw [hres, hdb]
    have hrh := (add_run_history_untouched (cycleBody o model db now).1
      (cycleBody o model db now).2.2.1 (cycleBody o model db now).2.2.2
      (if (cycleBody o model db now).2.1.isEmpty then none
       else some (cycleBody o model db now).2.1)
      (cycleBody o model db now).2.1.isEmpty (some dur)).2.1
    rw [hrh]
    exact cycleBody_found_videos o model db now

/-- The empty store (fresh database file). -/
def emptyDB : DB :=
  { channels := [], videos := [], transcripts := [], summaries := [],
    users := [], user_channels := [], queue := [], run_history := [],
    next_video_id := 1, next_transcript_id := 1, next_summary_id := 1,
    next_queue_id := 1, next_run_id := 1 }

theorem c2_idempotent_ingestion_witness :
    (add_video (add_video emptyDB "v1".data 1 "t".data 0 "u".data none).2
        "v1".data 1 "t".data 0 "u".data none =
      (none, (add_video emptyDB "v1".data 1 "t".data 0 "u".data none).2)) ∧
    ((add_video emptyDB "v1".data 1 "t".data 0 "u".data none).2.videos.countP
        (fun w => w.video_id == "v1".data) = 1) :=
  ⟨c2_idempotent_ingestion.2.1 emptyDB "v1".data 1 "t".data 0 "u".data none
      1 "t".data 0 "u".data none,
   (c2_idempotent_ingestion.2.2.1 emptyDB "v1".data 1 "t".data 0 "u".data none
      1 "t".data 0 "u".data none (by decide)).1⟩

/-! ## Monotonicity of `failed_attempts` -/

/-- Every video row of the first state survives into the second with the
same primary key and a `failed_attempts` value at least as large. -/
def videoMono (a b : DB) : Prop :=
  ∀ v, v ∈ a.videos → ∃ v', v' ∈ b.videos ∧ v'.id = v.id ∧
    v.failed_attempts ≤ v'.failed_attempts

theorem videoMono_of_eq {a b : DB} (h : b.videos = a.videos) : videoMono a b :=
  fun v hv => ⟨v, by rw [h]; exact hv, rfl, le_refl _⟩

theorem videoMono_trans {a b c : DB} (h1 : videoMono a b) (h2 : videoMono b c) :
    videoMono a c := by
  intro v hv
  obtain ⟨v', hv', hid, hle⟩ := h1 v hv
  obtain ⟨v'', hv'', hid', hle'⟩ := h2 v' hv'
  exact ⟨v'', hv'', by rw [hid', hid], le_trans hle hle'⟩

theorem videoMono_add_video (db : DB) (vid : PyStr) (cpk : Nat) (t : PyStr)
    (p : Nat) (u : PyStr) (d : Option PyStr) :
    videoMono db (add_video db vid cpk t p u d).2 := by
  intro v hv
  unfold add_video
  by_cases h : db.videos.any (fun w => w.video_id == vid) = true
  · exact ⟨v, by simp [h]; exact hv, rfl, le_refl _⟩
  · exact ⟨v, by simp [h]; exact Or.inl hv, rfl, le_refl _⟩

theorem videoMono_increment (db : DB) (id : Nat) :
    videoMono db (increment_video_failed_attempts db id).2 := by
  intro v hv
  unfold increment_video_failed_attempts
  cases hf : db.videos.find? (fun w => w.id == id) with
  | none => exact ⟨v, hv, rfl, le_refl _⟩
  | some w =>
    refine ⟨if v.id == id then { v with failed_attempts := v.failed_attempts + 1 } else v,
      ?_, ?_, ?_⟩
    · simp only []
      exact List.mem_map.mpr ⟨v, hv, rfl⟩
    · by_cases h : v.id == id <;> simp [h]
    · by_cases h : v.id == id <;> simp [h]

theorem videoMono_addVideosLoop (cpk : Nat) (l : List VideoData) :
    ∀ (db : DB) (found : Nat), videoMono db (addVideosLoop db cpk l found).1 := by
  induction l with
  | nil => intro db found; exact videoMono_of_eq (by simp [addVideosLoop])
  | cons vd rest ih =>
    intro db found
    simp only [addVideosLoop]
    exact videoMono_trans
      (videoMono_add_video db vd.id cpk vd.title vd.published_at vd.url vd.duration)
      (ih _ _)

theorem videoMono_stage1Go (o : CycleOracle) (now : Nat) (l : List ChannelRec) :
    ∀ (db : DB) (errors : List PyStr) (found : Nat),
    videoMono db (stage1Go o now l db errors found).1 := by
  induction l with
  | nil => intro db errors found; exact videoMono_of_eq (by simp [stage1Go])
  | cons c rest ih =>
    intro db errors found
    simp only [stage1Go]
    cases h : o.fetch_videos c.channel_id with
    | error e => dsimp only; exact ih _ _ _
    | ok vds =>
      dsimp only
      refine videoMono_trans (videoMono_addVideosLoop c.id vds db found)
        (videoMono_trans ?_ (ih _ _ _))
      exact videoMono_of_eq (update_channel_check_time_untouched _ c.id now).1

theorem videoMono_stage2Go (o : CycleOracle) (l : List VideoRec) :
    ∀ (db : DB) (errors : List PyStr),
    videoMono db (stage2Go o l db errors).1 := by
  induction l with
  | nil => intro db errors; exact videoMono_of_eq (by simp [stage2Go])
  | cons v rest ih =>
    intro db errors
    simp only [stage2Go]
    cases h : o.transcript_result v.video_id with
    | fetched text lang =>
      dsimp only
      exact videoMono_trans
        (videoMono_of_eq (add_transcript_untouched db v.id text (some lang)).2.1) (ih _ _)
    | unavailable =>
      dsimp only
      exact videoMono_trans (videoMono_increment db v.id) (ih _ _)
    | raised e =>
      dsimp only
      exact videoMono_trans (videoMono_increment db v.id) (ih _ _)

theorem videoMono_cycle (o : CycleOracle) (model : PyStr) (db : DB)
    (now : Nat) (dur : Int) :
    videoMono db (checkAndProcess o model db now dur).2 := by
  obtain ⟨hres, hdb⟩ := checkAndProcess_result_eq o model db now dur
  rw [hdb]
  refine videoMono_trans (b := (cycleBody o model db now).1) ?_
    (videoMono_of_eq (add_run_history_untouched _ _ _ _ _ _).2.1)
  unfold cycleBody
  cases h : o.init_result with
  | error e => exact videoMono_of_eq rfl
  | ok u =>
    dsimp only
    refine videoMono_trans (videoMono_stage1Go o now db.channels db [] 0) ?_
    refine videoMono_trans
      (videoMono_stage2Go o
        ((get_videos_without_transcripts (stage1Go o now db.channels db [] 0).1).take 50)
        (stage1Go o now db.channels db [] 0).1
        (stage1Go o now db.channels db [] 0).2.1) ?_
    exact videoMono_of_eq (stage3Go_untouched o model _ _ _ _).2.1

/-- Claim C3: `failed_attempts` never decreases across a whole run-cycle
invocation (each surviving row keeps its id with an equal-or-larger
counter, so capped videos also remain in storage); the only mutation is
`increment_video_failed_attempts`, which adds exactly one to the selected
row and leaves every other row untouched; and the stage-2 selection set
only ever contains videos with `failed_attempts` strictly below the cap,
so every video at or above 10 is absent from it. -/
theorem c3_failed_attempts_monotone_and_capped :
    (∀ (o : CycleOracle) (model : PyStr) (db : DB) (now : Nat) (dur : Int)
        (v : VideoRec), v ∈ db.videos →
       ∃ v', v' ∈ (checkAndProcess o model db now dur).2.videos ∧
         v'.id = v.id ∧ v.failed_attempts ≤ v'.failed_attempts) ∧
    (∀ (db : DB) (id : Nat) (v : VideoRec), v ∈ db.videos →
       (if v.id == id then { v with failed_attempts := v.failed_attempts + 1 } else v) ∈
         (increment_video_failed_attempts db id).2.videos ∨
       (increment_video_failed_attempts db id).2.videos = db.videos) ∧
    (∀ (db : DB) (m : Nat) (v : VideoRec),
       v ∈ get_videos_without_transcripts db m → v.failed_attempts < m) ∧
    (∀ (db : DB) (v : VideoRec), v ∈ db.videos → 10 ≤ v.failed_attempts →
       v ∉ get_videos_without_transcripts db 10) := by
  refine ⟨fun o model db now dur v hv => videoMono_cycle o model db now dur v hv,
    ?_, ?_, ?_⟩
  · intro db id v hv
    unfold increment_video_failed_attempts
    cases hf : db.videos.find? (fun w => w.id == id) with
    | none => exact Or.inr rfl
    | some w => exact Or.inl (by simp only []; exact List.mem_map.mpr ⟨v, hv, rfl⟩)
  · intro db m v hv
    have := List.mem_filter.mp hv
    have h2 := this.2
    simp only [Bool.and_eq_true, decide_eq_true_eq] at h2
    exact h2.2
  · intro db v _ hge hv
    have := List.mem_filter.mp hv
    have h2 := this.2
    simp only [Bool.and_eq_true, decide_eq_true_eq] at h2
    omega

/-- A video row with three recorded failures, used as concrete input. -/
def sampleVideo7 : VideoRec :=
  { id := 7, video_id := "v7".data, youtube_channel_id := 1, title := "t".data,
    published_at := 0, duration := none, url := "u".data, failed_attempts := 3 }

/-- A store holding just `sampleVideo7`. -/
def sampleDB7 : DB := { emptyDB with videos := [sampleVideo7] }

/-- An oracle whose client construction fails. -/
def failInitOracle : CycleOracle :=
  { init_result := Except.error "boom".data,
    fetch_videos := fun _ => Except.ok [],
    transcript_result := fun _ => TranscriptOutcome.unavailable,
    summarize := fun _ _ => Except.error "no".data,
    enqueue_raises := fun _ => false }

theorem c3_failed_attempts_witness :
    ∃ v', v' ∈ (checkAndProcess failInitOracle "m".data sampleDB7 0 0).2.videos ∧
      v'.id = sampleVideo7.id ∧ sampleVideo7.failed_attempts ≤ v'.failed_attempts :=
  c3_failed_attempts_monotone_and_capped.1 failInitOracle "m".data sampleDB7 0 0
    sampleVideo7 (by simp [sampleDB7])

/-! ## Prompt truncation -/

/-- Claim C8: the transcript text embedded in the summarization prompt is
the input unchanged when it is within the 15000-character budget, and
otherwise exactly the first 15000 characters with the truncation marker
appended; the prompt contains that embedded text between its fixed
parts. -/
theorem c8_prompt_truncation :
    maxTranscriptLength = 15000 ∧
    (∀ t : PyStr, t.length ≤ 15000 → truncatedForPrompt t = t) ∧
    (∀ t : PyStr, 15000 < t.length →
       truncatedForPrompt t = t.take 15000 ++ truncationMarker ∧
       (t.take 15000).length = 15000) ∧
    (∀ (t title : PyStr) (ml mk : Nat),
       buildPrompt t title ml mk =
         promptPart1 ++ title ++ promptPart2 ++ truncatedForPrompt t ++
           promptPart3 ++ (toString ml).data ++ promptPart4 ++
           (toString mk).data ++ promptPart5) := by
  refine ⟨rfl, ?_, ?_, fun t title ml mk => rfl⟩
  · intro t h
    unfold truncatedForPrompt
    rw [if_neg (by simp [maxTranscriptLength]; omega)]
  · intro t h
    unfold truncatedForPrompt
    rw [if_pos (by simpa [maxTranscriptLength] using h)]
    exact ⟨rfl, by simp [List.length_take]; omega⟩

theorem c8_prompt_truncation_witness :
    truncatedForPrompt "abc".data = "abc".data ∧
    truncatedForPrompt (List.replicate 15001 'a') =
      (List.replicate 15001 'a').take 15000 ++ truncationMarker :=
  ⟨c8_prompt_truncation.2.1 "abc".data (by decide),
   (c8_prompt_truncation.2.2.1 (List.replicate 15001 'a')
     (by rw [List.length_replicate]; omega)).1⟩

/-! ## The scheduling loop -/

/-- Claim C9: the pipeline is scheduled on a fixed 30-minute interval; an
immediate startup run happens exactly when some video has a transcript
row but no summary row; the loop's normal tick sleep is 60 seconds while
a caught loop-level fault is followed by a 300-second cooldown and the
loop continues; only `KeyboardInterrupt` stops the loop. -/
theorem c9_scheduler_cadence_and_cooldown :
    scheduleIntervalMinutes = 30 ∧
    (∀ db : DB, runsImmediatelyAtStartup db = true ↔
       ∃ v ∈ db.videos, hasTranscriptFor db v.id = true ∧
         db.summaries.any (fun s => s.video_id == v.id) = false) ∧
    schedulerLoopStep LoopEvent.tick = LoopStep.continueAfter 60 ∧
    (∀ m, schedulerLoopStep (LoopEvent.fault m) = LoopStep.continueAfter 300) ∧
    (∀ e, schedulerLoopStep e = LoopStep.stop ↔ e = LoopEvent.interrupt) := by
  refine ⟨rfl, ?_, rfl, fun m => rfl, ?_⟩
  · intro db
    have hne : (get_videos_without_summaries db).isEmpty = false ↔
        get_videos_without_summaries db ≠ [] := by
      cases h : get_videos_without_summaries db <;> simp
    constructor
    · intro h
      have h1 : get_videos_without_summaries db ≠ [] := by
        apply hne.mp
        simpa [runsImmediatelyAtStartup] using h
      obtain ⟨v, hv⟩ := List.exists_mem_of_ne_nil _ h1
      have := List.mem_filter.mp hv
      have h2 := this.2
      simp only [Bool.and_eq_true, Bool.not_eq_true'] at h2
      exact ⟨v, this.1, h2.1, h2.2⟩
    · intro ⟨v, hv, ht, hs⟩
      have hmem : v ∈ get_videos_without_summaries db := by
        apply List.mem_filter.mpr
        refine ⟨hv, ?_⟩
        simp only [Bool.and_eq_true, Bool.not_eq_true']
        exact ⟨ht, hs⟩
      have : get_videos_without_summaries db ≠ [] := by
        intro hnil
        rw [hnil] at hmem
        exact absurd hmem (List.not_mem_nil v)
      simpa [runsImmediatelyAtStartup] using hne.mpr this
  · intro e
    cases e <;> simp [schedulerLoopStep]

/-- A store holding one video with a transcript and no summary. -/
def backlogDB : DB :=
  { emptyDB with
    videos := [sampleVideo7],
    transcripts := [{ id := 1, video_id := 7, transcript_text := "hello".data,
                      language := some "en".data }] }

theorem c9_scheduler_cadence_witness :
    runsImmediatelyAtStartup backlogDB = true :=
  (c9_scheduler_cadence_and_cooldown.2.1 backlogDB).mpr
    ⟨sampleVideo7, by simp [backlogDB], by decide, by decide⟩

/-! ## Round-trip of the JSON string-array serialization -/

theorem parseJString_quote (rest : List Char) :
    parseJString ('"' :: rest) = some ([], rest) := by
  rw [parseJString.eq_def]
  dsimp only
  rw [if_pos rfl]

theorem parseJString_twochar (e ch : Char) (tail : List Char) (hu : e ≠ 'u')
    (hch : unescapeChar e = some ch) :
    parseJString ('\\' :: e :: tail) =
      (parseJString tail).map (fun p => (ch :: p.1, p.2)) := by
  rw [parseJString.eq_def]
  dsimp only
  rw [if_neg (by decide : ¬('\\' = '"')), if_pos rfl]
  rw [if_neg hu, hch]

theorem parseJString_uescape (a b c2 d : Char) (tail : List Char)
    (va vb vc vd : Nat) (ha : hexVal a = some va) (hb : hexVal b = some vb)
    (hc : hexVal c2 = some vc) (hd : hexVal d = some vd) :
    parseJString ('\\' :: 'u' :: a :: b :: c2 :: d :: tail) =
      (parseJString tail).map
        (fun p => (Char.ofNat (((va * 16 + vb) * 16 + vc) * 16 + vd) :: p.1, p.2)) := by
  rw [parseJString.eq_def]
  dsimp only
  rw [if_neg (by decide : ¬('\\' = '"')), if_pos rfl]
  rw [if_pos rfl, ha, hb, hc, hd]

theorem hexVal_hexDigitChar (k : Nat) (h : k < 16) :
    hexVal (hexDigitChar k) = some k := by
  interval_cases k <;> decide

theorem parseJString_encode (s : PyStr) :
    ∀ rest : List Char,
    parseJString (s.flatMap escapeChar ++ '"' :: rest) = some (s, rest) := by
  induction s with
  | nil => intro rest; simpa using parseJString_quote rest
  | cons c cs ih =>
    intro rest
    rw [List.flatMap_cons, List.append_assoc]
    by_cases h1 : c = '"'
    · subst h1
      rw [show escapeChar '"' = ['\\', '"'] from by decide]
      simp only [List.cons_append, List.nil_append]
      rw [parseJString_twochar '"' '"' _ (by decide) (by decide), ih rest]
      rfl
    by_cases h2 : c = '\\'
    · subst h2
      rw [show escapeChar '\\' = ['\\', '\\'] from by decide]
      simp only [List.cons_append, List.nil_append]
      rw [parseJString_twochar '\\' '\\' _ (by decide) (by decide), ih rest]
      rfl
    by_cases h3 : c = '\n'
    · subst h3
      rw [show escapeChar '\n' = ['\\', 'n'] from by decide]
      simp only [List.cons_append, List.nil_append]
      rw [parseJString_twochar 'n' '\n' _ (by decide) (by decide), ih rest]
      rfl
    by_cases h4 : c = '\t'
    · subst h4
      rw [show escapeChar '\t' = ['\\', 't'] from by decide]
      simp only [List.cons_append, List.nil_append]
      rw [parseJString_twochar 't' '\t' _ (by decide) (by decide), ih rest]
      rfl
    by_cases h5 : c = '\r'
    · subst h5
      rw [show escapeChar '\r' = ['\\', 'r'] from by decide]
      simp only [List.cons_append, List.nil_append]
      rw [parseJString_twochar 'r' '\r' _ (by decide) (by decide), ih rest]
      rfl
    by_cases h6 : c.toNat = 8
    · have hesc : escapeChar c = ['\\', 'b'] := by
        unfold escapeChar
        rw [if_neg h1, if_neg h2, if_neg h3, if_neg h4, if_neg h5, if_pos h6]
      have hc8 : Char.ofNat 8 = c := by rw [← h6, Char.ofNat_toNat]
      rw [hesc]
      simp only [List.cons_append, List.nil_append]
      rw [parseJString_twochar 'b' c _ (by decide)
        (by rw [show unescapeChar 'b' = some (Char.ofNat 8) from by decide, hc8]), ih rest]
      rfl
    by_cases h7 : c.toNat = 12
    · have hesc : escapeChar c = ['\\', 'f'] := by
        unfold escapeChar
        rw [if_neg h1, if_neg h2, if_neg h3, if_neg h4, if_neg h5, if_neg h6, if_pos h7]
      have hc12 : Char.ofNat 12 = c := by rw [← h7, Char.ofNat_toNat]
      rw [hesc]
      simp only [List.cons_append, List.nil_append]
      rw [parseJString_twochar 'f' c _ (by decide)
        (by rw [show unescapeChar 'f' = some (Char.ofNat 12) from by decide, hc12]), ih rest]
      rfl
    by_cases h8 : c.toNat < 32
    · have hesc : escapeChar c =
          ['\\', 'u', '0', '0', hexDigitChar (c.toNat / 16), hexDigitChar (c.toNat % 16)] := by
        unfold escapeChar
        rw [if_neg h1, if_neg h2, if_neg h3, if_neg h4, if_neg h5, if_neg h6, if_neg h7,
          if_pos h8]
      rw [hesc]
      simp only [List.cons_append, List.nil_append]
      rw [parseJString_uescape '0' '0' (hexDigitChar (c.toNat / 16))
        (hexDigitChar (c.toNat % 16)) _ 0 0 (c.toNat / 16) (c.toNat % 16)
        (by decide) (by decide)
        (hexVal_hexDigitChar _ (by omega)) (hexVal_hexDigitChar _ (by omega))]
      rw [ih rest]
      have hval : ((0 * 16 + 0) * 16 + c.toNat / 16) * 16 + c.toNat % 16 = c.toNat := by
        omega
      rw [hval, Char.ofNat_toNat]
      rfl
    · have hesc : escapeChar c = [c] := by
        unfold escapeChar
        rw [if_neg h1, if_neg h2, if_neg h3, if_neg h4, if_neg h5, if_neg h6, if_neg h7,
          if_neg h8]
      rw [hesc]
      simp only [List.cons_append, List.nil_append]
      rw [parseJString.eq_def]
      dsimp only
      rw [if_neg h1, if_neg h2, if_neg h8, ih rest]
      rfl

theorem skipSpaces_cons_ne (c : Char) (xs : List Char) (h : ¬c = ' ') :
    skipSpaces (c :: xs) = c :: xs := by
  simp [skipSpaces, List.dropWhile_cons, h]

theorem dumpsItems_cons_shape (s : PyStr) (l : List PyStr) :
    ∃ t, dumpsItems (s :: l) = '"' :: t := by
  cases l with
  | nil => exact ⟨_, rfl⟩
  | cons x xs => exact ⟨_, rfl⟩

theorem parseItems_encode (l : List PyStr) :
    ∀ (fuel : Nat) (tail : List Char), l ≠ [] → l.length ≤ fuel →
    parseItems fuel (dumpsItems l ++ ']' :: tail) = some (l, tail) := by
  induction l with
  | nil => intro fuel tail h; exact absurd rfl h
  | cons s l' ih =>
    intro fuel tail _ hlen
    cases fuel with
    | zero => simp at hlen
    | succ fuel =>
      cases l' with
      | nil =>
        show parseItems (fuel + 1) (encodeJString s ++ ']' :: tail) = some ([s], tail)
        rw [show encodeJString s ++ ']' :: tail =
          '"' :: (s.flatMap escapeChar ++ '"' :: ']' :: tail) from by
            simp [encodeJString]]
        rw [parseItems]
        rw [parseJString_encode s (']' :: tail)]
        dsimp only
        rw [skipSpaces_cons_ne ']' tail (by decide)]
        dsimp only
        rw [if_neg (by decide : ¬(']' = ',')), if_pos rfl]
      | cons x xs =>
        show parseItems (fuel + 1)
          ((encodeJString s ++ ',' :: ' ' :: dumpsItems (x :: xs)) ++ ']' :: tail) =
          some (s :: x :: xs, tail)
        rw [show (encodeJString s ++ ',' :: ' ' :: dumpsItems (x :: xs)) ++ ']' :: tail =
          '"' :: (s.flatMap escapeChar ++
            '"' :: ',' :: ' ' :: (dumpsItems (x :: xs) ++ ']' :: tail)) from by
            simp [encodeJString]]
        rw [parseItems]
        rw [parseJString_encode s (',' :: ' ' :: (dumpsItems (x :: xs) ++ ']' :: tail))]
        dsimp only
        rw [skipSpaces_cons_ne ',' _ (by decide)]
        dsimp only
        rw [if_pos rfl]
        obtain ⟨t, ht⟩ := dumpsItems_cons_shape x xs
        have hskip : skipSpaces (' ' :: (dumpsItems (x :: xs) ++ ']' :: tail)) =
            dumpsItems (x :: xs) ++ ']' :: tail := by
          rw [ht]
          simp [skipSpaces, List.dropWhile_cons]
        rw [hskip]
        rw [ih fuel tail (by simp) (by simpa using Nat.le_of_succ_le_succ hlen)]

theorem dumpsItems_length_ge (l : List PyStr) : l.length ≤ (dumpsItems l).length := by
  induction l with
  | nil => simp [dumpsItems]
  | cons s l' ih =>
    cases l' with
    | nil => simp [dumpsItems, encodeJString]
    | cons x xs =>
      have : dumpsItems (s :: x :: xs) =
          encodeJString s ++ ',' :: ' ' :: dumpsItems (x :: xs) := rfl
      rw [this]
      simp only [List.length_append, List.length_cons, encodeJString]
      simp only [List.length_cons] at ih ⊢
      omega

theorem loads_dumps (l : List PyStr) :
    loadsStringList (dumpsStringList l) = some l := by
  cases l with
  | nil => rfl
  | cons s l' =>
    rw [show dumpsStringList (s :: l') = '[' :: (dumpsItems (s :: l') ++ ']' :: []) from rfl]
    rw [loadsStringList]
    rw [skipSpaces_cons_ne '[' _ (by decide)]
    dsimp only
    rw [if_pos rfl]
    obtain ⟨t, ht⟩ := dumpsItems_cons_shape s l'
    have hsk : skipSpaces (dumpsItems (s :: l') ++ ']' :: []) =
        dumpsItems (s :: l') ++ ']' :: [] := by
      rw [ht]
      exact skipSpaces_cons_ne '"' _ (by decide)
    rw [hsk, ht]
    simp only [List.cons_append]
    rw [if_neg (by decide : ¬('"' = ']'))]
    rw [show ('"' : Char) :: (t ++ ']' :: []) = dumpsItems (s :: l') ++ ']' :: [] from by
      rw [ht]; simp]
    rw [parseItems_encode (s :: l') _ [] (by simp) ?hlen]
    case hlen =>
      have h1 := dumpsItems_length_ge (s :: l')
      simp only [List.length_cons] at h1 ⊢
      simp only [List.length_cons, List.length_append]
      omega
    rfl

/-- Claim C10: storing a list of strings through `set_errors` and reading
it back through `get_errors` returns the same list in the same order, and
likewise `get_key_points` after `set_key_points`; a run recorded with an
empty error list is stored with the column absent and `get_errors` then
returns the empty list.  The first conjunct is the underlying round trip
of the JSON string-array serialization. -/
theorem c10_list_field_roundtrip :
    (∀ l : List PyStr, loadsStringList (dumpsStringList l) = some l) ∧
    (∀ (r : RunHistoryRec) (l : List PyStr),
       runHistoryGetErrors (runHistorySetErrors r l) = some l) ∧
    (∀ (s : SummaryRec) (l : List PyStr),
       summaryGetKeyPoints (summarySetKeyPoints s l) = some l) ∧
    (∀ r : RunHistoryRec, r.errors = none → runHistoryGetErrors r = some []) ∧
    (∀ (db : DB) (f p : Nat) (su : Bool) (d : Option Int),
       ∃ r, (add_run_history db f p none su d).run_history = db.run_history ++ [r] ∧
         r.errors = none ∧ runHistoryGetErrors r = some []) := by
  refine ⟨loads_dumps, ?_, ?_, ?_, ?_⟩
  · intro r l
    show runHistoryGetErrors { r with errors := some (dumpsStringList l) } = some l
    unfold runHistoryGetErrors
    rw [show dumpsStringList l = '[' :: (dumpsItems l ++ [']']) from rfl]
    dsimp only
    rw [show ('[' : Char) :: (dumpsItems l ++ [']']) = dumpsStringList l from rfl]
    exact loads_dumps l
  · intro s l
    show summaryGetKeyPoints { s with key_points := some (dumpsStringList l) } = some l
    unfold summaryGetKeyPoints
    rw [show dumpsStringList l = '[' :: (dumpsItems l ++ [']']) from rfl]
    dsimp only
    rw [show ('[' : Char) :: (dumpsItems l ++ [']']) = dumpsStringList l from rfl]
    exact loads_dumps l
  · intro r h
    unfold runHistoryGetErrors
    rw [h]
  · intro db f p su d
    refine ⟨{ id := db.next_run_id, videos_found := f, videos_processed := p,
              errors := none, success := su, duration_seconds := d },
      by simp [add_run_history], rfl, rfl⟩

/-- A run-history row recorded with no errors column. -/
def emptyRunRow : RunHistoryRec :=
  { id := 1, videos_found := 0, videos_processed := 0, errors := none,
    success := true, duration_seconds := none }

theorem c10_list_field_roundtrip_witness :
    runHistoryGetErrors emptyRunRow = some [] :=
  c10_list_field_roundtrip.2.2.2.1 emptyRunRow rfl

/-! ## Stage-1 per-channel behaviour -/

/-- Some channel row with this primary key exists. -/
def channelIdIn (db : DB) (I : Nat) : Prop :=
  ∃ c ∈ db.channels, c.id = I

/-- Some channel row with this primary key has its `last_checked` set to
the cycle timestamp. -/
def channelDone (db : DB) (I now : Nat) : Prop :=
  ∃ c ∈ db.channels, c.id = I ∧ c.last_checked = some now

theorem channelIdIn_of_eq {a b : DB} (h : b.channels = a.channels) {I : Nat}
    (hi : channelIdIn a I) : channelIdIn b I := by
  obtain ⟨c, hc, hid⟩ := hi
  exact ⟨c, by rw [h]; exact hc, hid⟩

theorem channelDone_of_eq {a b : DB} (h : b.channels = a.channels) {I now : Nat}
    (hd : channelDone a I now) : channelDone b I now := by
  obtain ⟨c, hc, hid, hl⟩ := hd
  exact ⟨c, by rw [h]; exact hc, hid, hl⟩

theorem channelIdIn_update (db : DB) (I J now : Nat) (h : channelIdIn db I) :
    channelIdIn (update_channel_check_time db J now) I := by
  obtain ⟨c, hc, hid⟩ := h
  refine ⟨if c.id == J then { c with last_checked := some now } else c, ?_, ?_⟩
  · unfold update_channel_check_time
    exact List.mem_map.mpr ⟨c, hc, rfl⟩
  · split <;> simp [hid]

theorem channelDone_update (db : DB) (I J now : Nat) (h : channelDone db I now) :
    channelDone (update_channel_check_time db J now) I now := by
  obtain ⟨c, hc, hid, hl⟩ := h
  refine ⟨if c.id == J then { c with last_checked := some now } else c, ?_, ?_, ?_⟩
  · unfold update_channel_check_time
    exact List.mem_map.mpr ⟨c, hc, rfl⟩
  · split <;> simp [hid]
  · split <;> simp [hl]

theorem channelDone_update_self (db : DB) (I now : Nat) (h : channelIdIn db I) :
    channelDone (update_channel_check_time db I now) I now := by
  obtain ⟨c, hc, hid⟩ := h
  refine ⟨{ c with last_checked := some now }, ?_, hid, rfl⟩
  unfold update_channel_check_time
  refine List.mem_map.mpr ⟨c, hc, ?_⟩
  rw [if_pos (by simp [hid])]

theorem stage1Go_channelDone (o : CycleOracle) (now : Nat) (l : List ChannelRec) :
    ∀ (db : DB) (errors : List PyStr) (found : Nat) (I : Nat),
    channelDone db I now → channelDone (stage1Go o now l db errors found).1 I now := by
  induction l with
  | nil => intro db errors found I h; simpa [stage1Go] using h
  | cons a rest ih =>
    intro db errors found I h
    simp only [stage1Go]
    cases hf : o.fetch_videos a.channel_id with
    | error e => dsimp only; exact ih _ _ _ _ h
    | ok vds =>
      dsimp only
      refine ih _ _ _ _ (channelDone_update _ I a.id now ?_)
      exact channelDone_of_eq (addVideosLoop_untouched a.id vds db found).1 h

theorem stage1Go_spec (o : CycleOracle) (now : Nat) :
    ∀ (l : List ChannelRec) (db : DB) (errors : List PyStr) (found : Nat)
      (c : ChannelRec), c ∈ l → (∀ ch ∈ l, channelIdIn db ch.id) →
    (∀ e, o.fetch_videos c.channel_id = Except.error e →
       errMsgChannel c.channel_name e ∈ (stage1Go o now l db errors found).2.1) ∧
    (∀ vds, o.fetch_videos c.channel_id = Except.ok vds →
       channelDone (stage1Go o now l db errors found).1 c.id now) := by
  intro l
  induction l with
  | nil => intro db errors found c hc; exact absurd hc (List.not_mem_nil c)
  | cons a rest ih =>
    intro db errors found c hc hin
    simp only [stage1Go]
    cases h : o.fetch_videos a.channel_id with
    | error e0 =>
      dsimp only
      rcases List.mem_cons.mp hc with hceq | hcr
      · subst hceq
        constructor
        · intro e he
          rw [h] at he
          injection he with h'
          subst h'
          obtain ⟨d, hd⟩ := stage1Go_errors_extends o now rest db
            (errors ++ [errMsgChannel c.channel_name e0]) found
          rw [hd]
          simp
        · intro vds hv
          rw [h] at hv
          exact absurd hv (by simp)
      · exact ih db (errors ++ [errMsgChannel a.channel_name e0]) found c hcr
          (fun ch hch => hin ch (List.mem_cons_of_mem a hch))
    | ok vds0 =>
      dsimp only
      have hpres : ∀ I, channelIdIn db I →
          channelIdIn (update_channel_check_time
            (addVideosLoop db a.id vds0 found).1 a.id now) I := by
        intro I hI
        exact channelIdIn_update _ I a.id now
          (channelIdIn_of_eq (addVideosLoop_untouched a.id vds0 db found).1 hI)
      rcases List.mem_cons.mp hc with hceq | hcr
      · subst hceq
        constructor
        · intro e he
          rw [h] at he
          exact absurd he (by simp)
        · intro vds hv
          apply stage1Go_channelDone o now rest _ _ _ c.id
          apply channelDone_update_self
          exact channelIdIn_of_eq (addVideosLoop_untouched c.id vds0 db found).1
            (hin c (List.mem_cons_self c rest))
      · exact ih _ errors (addVideosLoop db a.id vds0 found).2 c hcr
          (fun ch hch => hpres ch.id (hin ch (List.mem_cons_of_mem a hch)))

/-- Claim C5: in stage 1, with client construction succeeding, every
channel whose fetch returns a list — even one whose videos were all
duplicates — ends the cycle with its `last_checked` set to the cycle
timestamp, while a channel whose fetch raises contributes exactly its
channel-scoped error string to the returned error list (and, the other
channels being quantified independently, does not stop their processing). -/
theorem c5_channel_update_and_isolation (o : CycleOracle) (model : PyStr)
    (db : DB) (now : Nat) (dur : Int) (c : ChannelRec)
    (hinit : o.init_result = Except.ok ()) (hc : c ∈ db.channels) :
    (∀ e, o.fetch_videos c.channel_id = Except.error e →
       errMsgChannel c.channel_name e ∈ (checkAndProcess o model db now dur).1.errors) ∧
    (∀ vds, o.fetch_videos c.channel_id = Except.ok vds →
       ∃ c', c' ∈ (checkAndProcess o model db now dur).2.channels ∧
         c'.id = c.id ∧ c'.last_checked = some now) := by
  obtain ⟨hres, hdb⟩ := checkAndProcess_result_eq o model db now dur
  have hbody : cycleBody o model db now =
      (let r1 := stage1Go o now db.channels db [] 0
       let sel2 := (get_videos_without_transcripts r1.1).take 50
       let r2 := stage2Go o sel2 r1.1 r1.2.1
       let sel3 := (get_videos_without_summaries r2.1).take 30
       let r3 := stage3Go o model sel3 r2.1 r2.2 0
       (r3.1, r3.2.1, r1.2.2, r3.2.2)) := by
    unfold cycleBody
    rw [hinit]
  obtain ⟨herr, hok⟩ := stage1Go_spec o now db.channels db [] 0 c hc
    (fun ch hch => ⟨ch, hch, rfl⟩)
  constructor
  · intro e he
    rw [hres]
    show errMsgChannel c.channel_name e ∈ (cycleBody o model db now).2.1
    rw [hbody]
    dsimp only
    obtain ⟨d2, hd2⟩ := stage2Go_errors_extends o
      ((get_videos_without_transcripts (stage1Go o now db.channels db [] 0).1).take 50)
      (stage1Go o now db.channels db [] 0).1 (stage1Go o now db.channels db [] 0).2.1
    obtain ⟨d3, hd3⟩ := stage3Go_errors_extends o model
      ((get_videos_without_summaries (stage2Go o
        ((get_videos_without_transcripts (stage1Go o now db.channels db [] 0).1).take 50)
        (stage1Go o now db.channels db [] 0).1
        (stage1Go o now db.channels db [] 0).2.1).1).take 30)
      (stage2Go o
        ((get_videos_without_transcripts (stage1Go o now db.channels db [] 0).1).take 50)
        (stage1Go o now db.channels db [] 0).1
        (stage1Go o now db.channels db [] 0).2.1).1
      (stage2Go o
        ((get_videos_without_transcripts (stage1Go o now db.channels db [] 0).1).take 50)
        (stage1Go o now db.channels db [] 0).1
        (stage1Go o now db.channels db [] 0).2.1).2 0
    rw [hd3, hd2]
    exact List.mem_append_left _ (List.mem_append_left _ (herr e he))
  · intro vds hv
    rw [hdb]
    have hdone := hok vds hv
    have h2 : channelDone (stage2Go o
        ((get_videos_without_transcripts (stage1Go o now db.channels db [] 0).1).take 50)
        (stage1Go o now db.channels db [] 0).1
        (stage1Go o now db.channels db [] 0).2.1).1 c.id now :=
      channelDone_of_eq (stage2Go_untouched o _ _ _).1 hdone
    have h3 : channelDone (cycleBody o model db now).1 c.id now := by
      rw [hbody]
      dsimp only
      exact channelDone_of_eq (stage3Go_untouched o model _ _ _ _).1 h2
    exact channelDone_of_eq (add_run_history_untouched _ _ _ _ _ _).1 h3

/-- A followed channel used as concrete input. -/
def sampleChannel : ChannelRec :=
  { id := 1, channel_id := "UC1".data, channel_name := "chan".data,
    channel_url := "url".data, last_checked := none }

/-- A store holding just `sampleChannel`. -/
def channelDB : DB := { emptyDB with channels := [sampleChannel] }

/-- An oracle whose clients construct but whose video fetch raises. -/
def fetchErrOracle : CycleOracle :=
  { init_result := Except.ok (),
    fetch_videos := fun _ => Except.error "quota".data,
    transcript_result := fun _ => TranscriptOutcome.unavailable,
    summarize := fun _ _ => Except.error "no".data,
    enqueue_raises := fun _ => false }

/-- An oracle whose clients construct and whose video fetch returns no
videos. -/
def fetchOkOracle : CycleOracle :=
  { init_result := Except.ok (),
    fetch_videos := fun _ => Except.ok [],
    transcript_result := fun _ => TranscriptOutcome.unavailable,
    summarize := fun _ _ => Except.error "no".data,
    enqueue_raises := fun _ => false }

theorem c5_channel_update_witness :
    (errMsgChannel sampleChannel.channel_name "quota".data ∈
       (checkAndProcess fetchErrOracle "m".data channelDB 0 0).1.errors) ∧
    (∃ c', c' ∈ (checkAndProcess fetchOkOracle "m".data channelDB 5 0).2.channels ∧
       c'.id = sampleChannel.id ∧ c'.last_checked = some 5) :=
  ⟨(c5_channel_update_and_isolation fetchErrOracle "m".data channelDB 0 0
      sampleChannel rfl (by simp [channelDB])).1 "quota".data rfl,
   (c5_channel_update_and_isolation fetchOkOracle "m".data channelDB 5 0
      sampleChannel rfl (by simp [channelDB])).2 [] rfl⟩

/-! ## Stage-2 per-video behaviour -/

theorem find_by_id_of_nodup :
    ∀ (l : List VideoRec) (v : VideoRec), v ∈ l → (l.map (·.id)).Nodup →
    l.find? (fun w => w.id == v.id) = some v := by
  intro l
  induction l with
  | nil => intro v hv; exact absurd hv (List.not_mem_nil v)
  | cons a rest ih =>
    intro v hv hnd
    rcases List.mem_cons.mp hv with hveq | hvr
    · subst hveq
      exact List.find?_cons_of_pos _ (by simp)
    · have hne : ¬(a.id == v.id) = true := by
        simp only [beq_iff_eq]
        intro hid
        have : v.id ∈ rest.map (·.id) := List.mem_map.mpr ⟨v, hvr, rfl⟩
        rw [← hid] at this
        exact (List.nodup_cons.mp (by simpa using hnd)).1 this
      rw [show List.find? (fun w => w.id == v.id) (a :: rest) =
          List.find? (fun w => w.id == v.id) rest from List.find?_cons_of_neg rest hne]
      exact ih v hvr (List.nodup_cons.mp (by simpa using hnd)).2

theorem mem_stage2_selection (db : DB) (m : Nat) (v : VideoRec)
    (h : v ∈ get_videos_without_transcripts db m) :
    v ∈ db.videos ∧ hasTranscriptFor db v.id = false ∧ v.failed_attempts < m := by
  have hm := List.mem_filter.mp h
  have h2 := hm.2
  simp only [Bool.and_eq_true, Bool.not_eq_true', decide_eq_true_eq] at h2
  exact ⟨hm.1, h2.1, h2.2⟩

theorem hasTranscriptFor_congr {a b : DB} (h : b.transcripts = a.transcripts) (i : Nat) :
    hasTranscriptFor b i = hasTranscriptFor a i := by
  unfold hasTranscriptFor
  rw [h]

theorem failedAttemptsOf_congr {a b : DB} (h : b.videos = a.videos) (i : Nat) :
    failedAttemptsOf b i = failedAttemptsOf a i := by
  unfold failedAttemptsOf findVideo
  rw [h]

theorem increment_failedAttempts_self (db : DB) (i : Nat) (w : VideoRec)
    (hw : findVideo db i = some w) :
    failedAttemptsOf (increment_video_failed_attempts db i).2 i =
      some (w.failed_attempts + 1) := by
  unfold increment_video_failed_attempts
  unfold findVideo at hw
  rw [hw]
  dsimp only
  unfold failedAttemptsOf findVideo
  simp only [List.find?_map]
  have hid : ∀ u : VideoRec, ((bumpIfMatch i u).id == i) = (u.id == i) := by
    intro u
    unfold bumpIfMatch
    split <;> simp_all
  simp only [Function.comp_def, hid]
  rw [hw]
  have hpi : (w.id == i) = true := by
    have := List.find?_some hw
    simpa using this
  simp [bumpIfMatch, hpi]

theorem increment_failedAttempts_other (db : DB) (i j : Nat) (hne : j ≠ i) :
    failedAttemptsOf (increment_video_failed_attempts db i).2 j =
      failedAttemptsOf db j := by
  unfold increment_video_failed_attempts
  cases hf : db.videos.find? (fun v => v.id == i) with
  | none => rfl
  | some w =>
    dsimp only
    unfold failedAttemptsOf findVideo
    simp only [List.find?_map]
    have hid : ∀ u : VideoRec, ((bumpIfMatch i u).id == j) = (u.id == j) := by
      intro u
      unfold bumpIfMatch
      split <;> simp_all
    simp only [Function.comp_def, hid]
    cases hg : db.videos.find? (fun v => v.id == j) with
    | none => rfl
    | some u =>
      have hpj : (u.id == j) = true := by
        have := List.find?_some hg
        simpa using this
      have : u.id ≠ i := by
        intro hui
        exact hne (by simp only [beq_iff_eq] at hpj; rw [← hpj, hui])
      simp [bumpIfMatch, this]

theorem add_transcript_has_self (db : DB) (i : Nat) (t : PyStr) (lg : Option PyStr) :
    hasTranscriptFor (add_transcript db i t lg) i = true := by
  unfold hasTranscriptFor add_transcript
  simp [List.any_append]

theorem add_transcript_has_other (db : DB) (i j : Nat) (t : PyStr)
    (lg : Option PyStr) (h : j ≠ i) :
    hasTranscriptFor (add_transcript db i t lg) j = hasTranscriptFor db j := by
  unfold hasTranscriptFor add_transcript
  simp [List.any_append, show i ≠ j from fun hh => h hh.symm]

theorem stage2Go_preserves (o : CycleOracle) (l : List VideoRec) :
    ∀ (db : DB) (errors : List PyStr) (i : Nat), (∀ w ∈ l, w.id ≠ i) →
    failedAttemptsOf (stage2Go o l db errors).1 i = failedAttemptsOf db i ∧
    hasTranscriptFor (stage2Go o l db errors).1 i = hasTranscriptFor db i := by
  induction l with
  | nil => intro db errors i _; simp [stage2Go]
  | cons v rest ih =>
    intro db errors i hne
    have hvi : v.id ≠ i := hne v (List.mem_cons_self v rest)
    have hrest : ∀ w ∈ rest, w.id ≠ i := fun w hw => hne w (List.mem_cons_of_mem v hw)
    simp only [stage2Go]
    cases h : o.transcript_result v.video_id with
    | fetched text lang =>
      dsimp only
      obtain ⟨hf, ht⟩ := ih (add_transcript db v.id text (some lang)) errors i hrest
      refine ⟨?_, ?_⟩
      · rw [hf, failedAttemptsOf_congr (add_transcript_untouched db v.id text (some lang)).2.1]
      · rw [ht, add_transcript_has_other db v.id i text (some lang) (fun hh => hvi hh.symm)]
    | unavailable =>
      dsimp only
      obtain ⟨hf, ht⟩ := ih (increment_video_failed_attempts db v.id).2
        (errors ++ [noTranscriptMsg v.title]) i hrest
      refine ⟨?_, ?_⟩
      · rw [hf, increment_failedAttempts_other db v.id i (fun hh => hvi hh.symm)]
      · rw [ht, hasTranscriptFor_congr (increment_untouched db v.id).2.1]
    | raised e =>
      dsimp only
      obtain ⟨hf, ht⟩ := ih (increment_video_failed_attempts db v.id).2
        (errors ++ [transcriptErrMsg v.title e]) i hrest
      refine ⟨?_, ?_⟩
      · rw [hf, increment_failedAttempts_other db v.id i (fun hh => hvi hh.symm)]
      · rw [ht, hasTranscriptFor_congr (increment_untouched db v.id).2.1]

theorem stage2Go_item (o : CycleOracle) (l : List VideoRec) :
    ∀ (db : DB) (errors : List PyStr) (v : VideoRec), v ∈ l →
    (l.map (·.id)).Nodup →
    failedAttemptsOf db v.id = some v.failed_attempts →
    (∀ t lg, o.transcript_result v.video_id = TranscriptOutcome.fetched t lg →
       hasTranscriptFor (stage2Go o l db errors).1 v.id = true ∧
       failedAttemptsOf (stage2Go o l db errors).1 v.id = some v.failed_attempts) ∧
    (o.transcript_result v.video_id = TranscriptOutcome.unavailable →
       failedAttemptsOf (stage2Go o l db errors).1 v.id = some (v.failed_attempts + 1) ∧
       noTranscriptMsg v.title ∈ (stage2Go o l db errors).2) ∧
    (∀ e, o.transcript_result v.video_id = TranscriptOutcome.raised e →
       failedAttemptsOf (stage2Go o l db errors).1 v.id = some (v.failed_attempts + 1) ∧
       transcriptErrMsg v.title e ∈ (stage2Go o l db errors).2) := by
  induction l with
  | nil => intro db errors v hv; exact absurd hv (List.not_mem_nil v)
  | cons a rest ih =>
    intro db errors v hv hnd hfa
    have hw : ∃ w, findVideo db v.id = some w ∧ w.failed_attempts = v.failed_attempts := by
      unfold failedAttemptsOf at hfa
      cases hfw : findVideo db v.id with
      | none => rw [hfw] at hfa; exact absurd hfa (by simp)
      | some w =>
        rw [hfw] at hfa
        exact ⟨w, rfl, by simpa using hfa⟩
    rcases List.mem_cons.mp hv with hveq | hvr
    · subst hveq
      have hrest_ne : ∀ w ∈ rest, w.id ≠ v.id := by
        intro w hwr hid
        have : v.id ∈ rest.map (·.id) := List.mem_map.mpr ⟨w, hwr, hid⟩
        exact (List.nodup_cons.mp (by simpa using hnd)).1 this
      simp only [stage2Go]
      cases h : o.transcript_result v.video_id with
      | fetched text lang =>
        dsimp only
        obtain ⟨hf, ht⟩ := stage2Go_preserves o rest
          (add_transcript db v.id text (some lang)) errors v.id hrest_ne
        refine ⟨?_, ?_, ?_⟩
        · intro t lg hfd
          refine ⟨?_, ?_⟩
          · rw [ht, add_transcript_has_self]
          · rw [hf, failedAttemptsOf_congr (add_transcript_untouched db v.id text (some lang)).2.1]
            exact hfa
        · intro hu; exact absurd hu (by simp)
        · intro e he; exact absurd he (by simp)
      | unavailable =>
        dsimp only
        obtain ⟨w, hfw, hwfa⟩ := hw
        obtain ⟨hf, ht⟩ := stage2Go_preserves o rest
          (increment_video_failed_attempts db v.id).2
          (errors ++ [noTranscriptMsg v.title]) v.id hrest_ne
        refine ⟨?_, ?_, ?_⟩
        · intro t lg hfd; exact absurd hfd (by simp)
        · intro _
          refine ⟨?_, ?_⟩
          · rw [hf, increment_failedAttempts_self db v.id w hfw, hwfa]
          · obtain ⟨d, hd⟩ := stage2Go_errors_extends o rest
              (increment_video_failed_attempts db v.id).2
              (errors ++ [noTranscriptMsg v.title])
            rw [hd]
            simp
        · intro e he; exact absurd he (by simp)
      | raised e0 =>
        dsimp only
        obtain ⟨w, hfw, hwfa⟩ := hw
        obtain ⟨hf, ht⟩ := stage2Go_preserves o rest
          (increment_video_failed_attempts db v.id).2
          (errors ++ [transcriptErrMsg v.title e0]) v.id hrest_ne
        refine ⟨?_, ?_, ?_⟩
        · intro t lg hfd; exact absurd hfd (by simp)
        · intro hu; exact absurd hu (by simp)
        · intro e he
          injection he with h'
          subst h'
          refine ⟨?_, ?_⟩
          · rw [hf, increment_failedAttempts_self db v.id w hfw, hwfa]
          · obtain ⟨d, hd⟩ := stage2Go_errors_extends o rest
              (increment_video_failed_attempts db v.id).2
              (errors ++ [transcriptErrMsg v.title e0])
            rw [hd]
            simp
    · have hane : a.id ≠ v.id := by
        intro hid
        have : v.id ∈ rest.map (·.id) := List.mem_map.mpr ⟨v, hvr, rfl⟩
        rw [← hid] at this
        exact (List.nodup_cons.mp (by simpa using hnd)).1 this
      have hnd' : (rest.map (·.id)).Nodup := (List.nodup_cons.mp (by simpa using hnd)).2
      simp only [stage2Go]
      cases h : o.transcript_result a.video_id with
      | fetched text lang =>
        dsimp only
        refine ih (add_transcript db a.id text (some lang)) errors v hvr hnd' ?_
        rw [failedAttemptsOf_congr (add_transcript_untouched db a.id text (some lang)).2.1]
        exact hfa
      | unavailable =>
        dsimp only
        refine ih (increment_video_failed_attempts db a.id).2
          (errors ++ [noTranscriptMsg a.title]) v hvr hnd' ?_
        rw [increment_failedAttempts_other db a.id v.id (fun hh => hane hh.symm)]
        exact hfa
      | raised e0 =>
        dsimp only
        refine ih (increment_video_failed_attempts db a.id).2
          (errors ++ [transcriptErrMsg a.title e0]) v hvr hnd' ?_
        rw [increment_failedAttempts_other db a.id v.id (fun hh => hane hh.symm)]
        exact hfa

/-- Claim C6: stage 2 processes at most 50 videos, all selected lacking a
transcript with `failed_attempts` under the cap of 10; each selected video
has exactly one of three outcomes — text fetched: a transcript row exists
afterwards and its counter is unchanged; unavailable: counter incremented
by one and the warning-style string appended; exception: counter
incremented identically and an error string with a different (here:
provably unequal) message appended — and these outcomes hold for every
selected video, so no per-item failure aborts the batch. -/
theorem c6_stage2_batch_outcomes (o : CycleOracle) (db : DB)
    (errors : List PyStr) (v : VideoRec)
    (hnd : (db.videos.map (·.id)).Nodup)
    (hv : v ∈ (get_videos_without_transcripts db).take 50) :
    ((get_videos_without_transcripts db).take 50).length ≤ 50 ∧
    v.failed_attempts < 10 ∧
    hasTranscriptFor db v.id = false ∧
    (∀ t lg, o.transcript_result v.video_id = TranscriptOutcome.fetched t lg →
       hasTranscriptFor
           (stage2Go o ((get_videos_without_transcripts db).take 50) db errors).1 v.id = true ∧
       failedAttemptsOf
           (stage2Go o ((get_videos_without_transcripts db).take 50) db errors).1 v.id =
         some v.failed_attempts) ∧
    (o.transcript_result v.video_id = TranscriptOutcome.unavailable →
       failedAttemptsOf
           (stage2Go o ((get_videos_without_transcripts db).take 50) db errors).1 v.id =
         some (v.failed_attempts + 1) ∧
       noTranscriptMsg v.title ∈
         (stage2Go o ((get_videos_without_transcripts db).take 50) db errors).2) ∧
    (∀ e, o.transcript_result v.video_id = TranscriptOutcome.raised e →
       failedAttemptsOf
           (stage2Go o ((get_videos_without_transcripts db).take 50) db errors).1 v.id =
         some (v.failed_attempts + 1) ∧
       transcriptErrMsg v.title e ∈
         (stage2Go o ((get_videos_without_transcripts db).take 50) db errors).2) ∧
    (∀ title e, noTranscriptMsg title ≠ transcriptErrMsg title e) := by
  have hmemsel : v ∈ get_videos_without_transcripts db := List.mem_of_mem_take hv
  obtain ⟨hmem, hnot, hlt⟩ := mem_stage2_selection db 10 v hmemsel
  have hsub : List.Sublist (((get_videos_without_transcripts db).take 50).map (·.id))
      (db.videos.map (·.id)) := by
    apply List.Sublist.map
    exact ((get_videos_without_transcripts db).take_sublist 50).trans
      (List.filter_sublist db.videos)
  have hnd50 : (((get_videos_without_transcripts db).take 50).map (·.id)).Nodup :=
    hnd.sublist hsub
  have hfa : failedAttemptsOf db v.id = some v.failed_attempts := by
    unfold failedAttemptsOf findVideo
    rw [find_by_id_of_nodup db.videos v hmem hnd]
    rfl
  obtain ⟨hfet, huna, hrai⟩ := stage2Go_item o
    ((get_videos_without_transcripts db).take 50) db errors v hv hnd50 hfa
  refine ⟨List.length_take_le 50 _, hlt, hnot, hfet, huna, hrai, ?_⟩
  intro title e h
  have h1 : (noTranscriptMsg title).head? = some 'N' := rfl
  have h2 : (transcriptErrMsg title e).head? = some 'E' := rfl
  rw [h] at h1
  exact absurd (h1.symm.trans h2) (by decide)

theorem c6_stage2_batch_outcomes_witness :
    failedAttemptsOf
        (stage2Go fetchErrOracle
          ((get_videos_without_transcripts sampleDB7).take 50) sampleDB7 []).1
        sampleVideo7.id = some (sampleVideo7.failed_attempts + 1) ∧
    noTranscriptMsg sampleVideo7.title ∈
      (stage2Go fetchErrOracle
        ((get_videos_without_transcripts sampleDB7).take 50) sampleDB7 []).2 :=
  (c6_stage2_batch_outcomes fetchErrOracle sampleDB7 [] sampleVideo7
    (by decide) (by decide)).2.2.2.2.1 rfl

/-! ## Stage-3 per-video behaviour -/

theorem transcriptTextOf_congr {a b : DB} (h : b.transcripts = a.transcripts) (i : Nat) :
    transcriptTextOf b i = transcriptTextOf a i := by
  unfold transcriptTextOf
  rw [h]

theorem summaryCountFor_congr {a b : DB} (h : b.summaries = a.summaries) (i : Nat) :
    summaryCountFor b i = summaryCountFor a i := by
  unfold summaryCountFor
  rw [h]

theorem mem_stage3_selection (db : DB) (v : VideoRec)
    (h : v ∈ get_videos_without_summaries db) :
    v ∈ db.videos ∧ hasTranscriptFor db v.id = true ∧ summaryCountFor db v.id = 0 := by
  have hm := List.mem_filter.mp h
  have h2 := hm.2
  simp only [Bool.and_eq_true, Bool.not_eq_true'] at h2
  refine ⟨hm.1, h2.1, ?_⟩
  unfold summaryCountFor
  rw [List.countP_eq_zero]
  intro s hs
  have := List.any_eq_false.mp h2.2 s hs
  simpa using this

theorem add_summary_count_self (db : DB) (i : Nat) (st : PyStr) (kp : List PyStr)
    (m : PyStr) :
    summaryCountFor (add_summary db i st kp m) i = summaryCountFor db i + 1 := by
  unfold summaryCountFor add_summary
  simp [List.countP_append, summarySetKeyPoints]

theorem add_summary_count_other (db : DB) (i j : Nat) (st : PyStr) (kp : List PyStr)
    (m : PyStr) (h : j ≠ i) :
    summaryCountFor (add_summary db i st kp m) j = summaryCountFor db j := by
  unfold summaryCountFor add_summary
  simp [List.countP_append, summarySetKeyPoints,
    show i ≠ j from fun hh => h hh.symm]

/-- Whether stage 3 will count this video as processed, judged from the
store it was selected from. -/
def stage3SuccessB (o : CycleOracle) (db : DB) (w : VideoRec) : Bool :=
  match transcriptTextOf db w.id with
  | none => false
  | some text =>
    match o.summarize text w.title with
    | Except.ok _ => true
    | Except.error _ => false

theorem stage3SuccessB_congr (o : CycleOracle) {a b : DB}
    (h : b.transcripts = a.transcripts) :
    stage3SuccessB o b = stage3SuccessB o a := by
  funext w
  unfold stage3SuccessB
  rw [transcriptTextOf_congr h]

theorem stage3_step_transcripts (o : CycleOracle) (model : PyStr) (db : DB)
    (v : VideoRec) (st : PyStr) (kp : List PyStr) :
    (notifyForVideo o (add_summary db v.id st kp model) v).transcripts =
      db.transcripts := by
  rw [(notifyForVideo_untouched o (add_summary db v.id st kp model) v).2.2.1]
  exact (add_summary_untouched db v.id st kp model).2.2.1

theorem stage3Go_processed (o : CycleOracle) (model : PyStr) (l : List VideoRec) :
    ∀ (db : DB) (errors : List PyStr) (processed : Nat),
    (stage3Go o model l db errors processed).2.2 =
      processed + l.countP (stage3SuccessB o db) := by
  induction l with
  | nil => intro db errors processed; simp [stage3Go]
  | cons v rest ih =>
    intro db errors processed
    simp only [stage3Go]
    cases ht : transcriptTextOf db v.id with
    | none =>
      dsimp only
      rw [ih]
      rw [List.countP_cons]
      simp [stage3SuccessB, ht]
    | some text =>
      dsimp only
      cases hs : o.summarize text v.title with
      | error e =>
        dsimp only
        rw [ih]
        rw [List.countP_cons]
        simp [stage3SuccessB, ht, hs]
      | ok r =>
        cases r with
        | mk st kp =>
          dsimp only
          rw [ih]
          rw [show stage3SuccessB o (notifyForVideo o (add_summary db v.id st kp model) v) =
              stage3SuccessB o db from
            stage3SuccessB_congr o (stage3_step_transcripts o model db v st kp)]
          rw [List.countP_cons]
          simp [stage3SuccessB, ht, hs]
          omega

theorem stage3Go_preserves_summary (o : CycleOracle) (model : PyStr)
    (l : List VideoRec) :
    ∀ (db : DB) (errors : List PyStr) (processed : Nat) (i : Nat),
    (∀ w ∈ l, w.id ≠ i) →
    summaryCountFor (stage3Go o model l db errors processed).1 i =
      summaryCountFor db i := by
  induction l with
  | nil => intro db errors processed i _; simp [stage3Go]
  | cons v rest ih =>
    intro db errors processed i hne
    have hvi : v.id ≠ i := hne v (List.mem_cons_self v rest)
    have hrest : ∀ w ∈ rest, w.id ≠ i := fun w hw => hne w (List.mem_cons_of_mem v hw)
    simp only [stage3Go]
    cases ht : transcriptTextOf db v.id with
    | none => dsimp only; exact ih _ _ _ i hrest
    | some text =>
      dsimp only
      cases hs : o.summarize text v.title with
      | error e => dsimp only; exact ih _ _ _ i hrest
      | ok r =>
        cases r with
        | mk st kp =>
          dsimp only
          rw [ih _ _ _ i hrest]
          rw [summaryCountFor_congr
            (notifyForVideo_untouched o (add_summary db v.id st kp model) v).2.2.2.1]
          exact add_summary_count_other db v.id i st kp model (fun hh => hvi hh.symm)

theorem stage3Go_item (o : CycleOracle) (model : PyStr) (l : List VideoRec) :
    ∀ (db : DB) (errors : List PyStr) (processed : Nat) (v : VideoRec), v ∈ l →
    (l.map (·.id)).Nodup →
    summaryCountFor db v.id = 0 →
    ∀ text, transcriptTextOf db v.id = some text →
    (∀ e, o.summarize text v.title = Except.error e →
       summaryCountFor (stage3Go o model l db errors processed).1 v.id = 0 ∧
       summErrMsg v.title e ∈ (stage3Go o model l db errors processed).2.1) ∧
    (∀ st kp, o.summarize text v.title = Except.ok (st, kp) →
       summaryCountFor (stage3Go o model l db errors processed).1 v.id = 1) := by
  induction l with
  | nil => intro db errors processed v hv; exact absurd hv (List.not_mem_nil v)
  | cons a rest ih =>
    intro db errors processed v hv hnd hcount text htext
    rcases List.mem_cons.mp hv with hveq | hvr
    · subst hveq
      have hrest_ne : ∀ w ∈ rest, w.id ≠ v.id := by
        intro w hwr hid
        have : v.id ∈ rest.map (·.id) := List.mem_map.mpr ⟨w, hwr, hid⟩
        exact (List.nodup_cons.mp (by simpa using hnd)).1 this
      simp only [stage3Go]
      rw [htext]
      dsimp only
      constructor
      · intro e he
        rw [he]
        dsimp only
        refine ⟨?_, ?_⟩
        · rw [stage3Go_preserves_summary o model rest db _ processed v.id hrest_ne]
          exact hcount
        · obtain ⟨d, hd⟩ := stage3Go_errors_extends o model rest db
            (errors ++ [summErrMsg v.title e]) processed
          rw [hd]
          simp
      · intro st kp hok
        rw [hok]
        dsimp only
        rw [stage3Go_preserves_summary o model rest _ errors (processed + 1) v.id hrest_ne]
        rw [summaryCountFor_congr
          (notifyForVideo_untouched o (add_summary db v.id st kp model) v).2.2.2.1]
        rw [add_summary_count_self db v.id st kp model, hcount]
    · have hane : a.id ≠ v.id := by
        intro hid
        have : v.id ∈ rest.map (·.id) := List.mem_map.mpr ⟨v, hvr, rfl⟩
        rw [← hid] at this
        exact (List.nodup_cons.mp (by simpa using hnd)).1 this
      have hnd' : (rest.map (·.id)).Nodup := (List.nodup_cons.mp (by simpa using hnd)).2
      simp only [stage3Go]
      cases hta : transcriptTextOf db a.id with
      | none => dsimp only; exact ih db _ processed v hvr hnd' hcount text htext
      | some ta =>
        dsimp only
        cases hsa : o.summarize ta a.title with
        | error e => dsimp only; exact ih db _ processed v hvr hnd' hcount text htext
        | ok r =>
          cases r with
          | mk st kp =>
            dsimp only
            refine ih _ errors (processed + 1) v hvr hnd' ?_ text ?_
            · rw [summaryCountFor_congr
                (notifyForVideo_untouched o (add_summary db a.id st kp model) a).2.2.2.1]
              rw [add_summary_count_other db a.id v.id st kp model (fun hh => hane hh.symm)]
              exact hcount
            · rw [transcriptTextOf_congr (stage3_step_transcripts o model db a st kp)]
              exact htext

/-- The scheduler's per-user truthiness check `if user.telegram_chat_id:`
(`None` and the empty string are falsy). -/
def chatTruthy (u : UserRec) : Bool :=
  match u.telegram_chat_id with
  | some (_ :: _) => true
  | _ => false

theorem notifyUsers_count (o : CycleOracle) (msg : PyStr) (l : List UserRec) :
    ∀ db : DB,
    (∀ u ∈ l, ∀ c cs, u.telegram_chat_id = some (c :: cs) →
       o.enqueue_raises (c :: cs) = false) →
    (notifyUsers o msg l db).queue.length = db.queue.length + l.countP chatTruthy := by
  induction l with
  | nil => intro db _; simp [notifyUsers]
  | cons u rest ih =>
    intro db hno
    have hrest : ∀ w ∈ rest, ∀ c cs, w.telegram_chat_id = some (c :: cs) →
        o.enqueue_raises (c :: cs) = false :=
      fun w hw => hno w (List.mem_cons_of_mem u hw)
    simp only [notifyUsers]
    cases hch : u.telegram_chat_id with
    | none =>
      dsimp only
      rw [ih db hrest, List.countP_cons]
      simp [chatTruthy, hch]
    | some cid =>
      cases cid with
      | nil =>
        dsimp only
        rw [ih db hrest, List.countP_cons]
        simp [chatTruthy, hch]
      | cons c cs =>
        have hfalse := hno u (List.mem_cons_self u rest) c cs hch
        dsimp only
        rw [if_neg (by rw [hfalse]; exact Bool.false_ne_true)]
        rw [ih _ hrest]
        have hq : (add_telegram_message_to_queue db (c :: cs) msg).queue.length =
            db.queue.length + 1 := by
          unfold add_telegram_message_to_queue
          simp
        rw [hq, List.countP_cons]
        simp [chatTruthy, hch]
        omega

theorem mem_get_users (db : DB) (cid : Nat) (u : UserRec) :
    u ∈ get_users_for_telegram_notification db cid ↔
      u ∈ db.users ∧ u.telegram_enabled = true ∧ u.telegram_chat_id.isSome = true ∧
        ∃ p ∈ db.user_channels, p.1 = u.id ∧ p.2 = cid := by
  unfold get_users_for_telegram_notification
  rw [List.mem_filter]
  simp only [Bool.and_eq_true, List.any_eq_true, beq_iff_eq]
  constructor
  · rintro ⟨hm, ⟨⟨he, hc⟩, p, hp, h1, h2⟩⟩
    exact ⟨hm, he, hc, p, hp, h1, h2⟩
  · rintro ⟨hm, he, hc, p, hp, h1, h2⟩
    exact ⟨hm, ⟨⟨he, hc⟩, p, hp, h1, h2⟩⟩

/-- Claim C7: stage 3 processes at most 30 videos, all selected having a
transcript row and no summary row; on a summarization failure the error
string is appended, the batch continues (the property holds for every
selected video), and no summary row for that video is ever persisted. -/
theorem c7_stage3_batch_and_failure (o : CycleOracle) (model : PyStr) (db : DB)
    (errors : List PyStr) (processed : Nat) (v : VideoRec)
    (hnd : (db.videos.map (·.id)).Nodup)
    (hv : v ∈ (get_videos_without_summaries db).take 30) :
    ((get_videos_without_summaries db).take 30).length ≤ 30 ∧
    hasTranscriptFor db v.id = true ∧
    summaryCountFor db v.id = 0 ∧
    (∀ text, transcriptTextOf db v.id = some text →
       ∀ e, o.summarize text v.title = Except.error e →
         summaryCountFor
             (stage3Go o model ((get_videos_without_summaries db).take 30)
               db errors processed).1 v.id = 0 ∧
         summErrMsg v.title e ∈
           (stage3Go o model ((get_videos_without_summaries db).take 30)
             db errors processed).2.1) := by
  have hmemsel : v ∈ get_videos_without_summaries db := List.mem_of_mem_take hv
  obtain ⟨hmem, htx, hcount⟩ := mem_stage3_selection db v hmemsel
  have hsub : List.Sublist (((get_videos_without_summaries db).take 30).map (·.id))
      (db.videos.map (·.id)) := by
    apply List.Sublist.map
    exact ((get_videos_without_summaries db).take_sublist 30).trans
      (List.filter_sublist db.videos)
  have hnd30 : (((get_videos_without_summaries db).take 30).map (·.id)).Nodup :=
    hnd.sublist hsub
  refine ⟨List.length_take_le 30 _, htx, hcount, ?_⟩
  intro text htext e he
  exact (stage3Go_item o model ((get_videos_without_summaries db).take 30)
    db errors processed v hv hnd30 hcount text htext).1 e he

theorem c7_stage3_batch_witness :
    summaryCountFor
        (stage3Go fetchErrOracle "m".data
          ((get_videos_without_summaries backlogDB).take 30) backlogDB [] 0).1
        sampleVideo7.id = 0 ∧
    summErrMsg sampleVideo7.title "no".data ∈
      (stage3Go fetchErrOracle "m".data
        ((get_videos_without_summaries backlogDB).take 30) backlogDB [] 0).2.1 :=
  (c7_stage3_batch_and_failure fetchErrOracle "m".data backlogDB [] 0 sampleVideo7
    (by decide) (by decide)).2.2.2 "hello".data rfl "no".data rfl

/-! ## Stage-3 success, durability and notification fan-out -/

/-- Claim C4 (amended): a successful summarization persists exactly one
summary row and that row survives the notification pass whatever the
enqueue oracle does; `videos_processed` counts exactly the successfully
summarized selected videos; when no enqueue raises, exactly one queue item
is created per enumerated user with a truthy chat id; and the enumerated
users are exactly the channel's followers with notifications enabled and a
non-NULL chat id.  (The per-subscriber isolation the original claim
asserts is refuted separately: one failed enqueue aborts the video's
remaining enqueues.) -/
theorem c4_summary_durability_and_fanout :
    (∀ (o : CycleOracle) (model : PyStr) (db : DB) (errors : List PyStr)
        (processed : Nat) (v : VideoRec),
       (db.videos.map (·.id)).Nodup →
       v ∈ (get_videos_without_summaries db).take 30 →
       ∀ text, transcriptTextOf db v.id = some text →
       ∀ st kp, o.summarize text v.title = Except.ok (st, kp) →
         summaryCountFor
             (stage3Go o model ((get_videos_without_summaries db).take 30)
               db errors processed).1 v.id = 1) ∧
    (∀ (o : CycleOracle) (model : PyStr) (db : DB) (errors : List PyStr)
        (processed : Nat),
       (stage3Go o model ((get_videos_without_summaries db).take 30)
           db errors processed).2.2 =
         processed +
           ((get_videos_without_summaries db).take 30).countP (stage3SuccessB o db)) ∧
    (∀ (o : CycleOracle) (msg : PyStr) (l : List UserRec) (db : DB),
       (∀ u ∈ l, ∀ c cs, u.telegram_chat_id = some (c :: cs) →
          o.enqueue_raises (c :: cs) = false) →
       (notifyUsers o msg l db).queue.length = db.queue.length + l.countP chatTruthy) ∧
    (∀ (db : DB) (cid : Nat) (u : UserRec),
       u ∈ get_users_for_telegram_notification db cid ↔
         u ∈ db.users ∧ u.telegram_enabled = true ∧ u.telegram_chat_id.isSome = true ∧
           ∃ p ∈ db.user_channels, p.1 = u.id ∧ p.2 = cid) := by
  refine ⟨?_, ?_, notifyUsers_count, mem_get_users⟩
  · intro o model db errors processed v hnd hv text htext st kp hok
    have hmemsel : v ∈ get_videos_without_summaries db := List.mem_of_mem_take hv
    obtain ⟨hmem, htx, hcount⟩ := mem_stage3_selection db v hmemsel
    have hsub : List.Sublist (((get_videos_without_summaries db).take 30).map (·.id))
        (db.videos.map (·.id)) := by
      apply List.Sublist.map
      exact ((get_videos_without_summaries db).take_sublist 30).trans
        (List.filter_sublist db.videos)
    have hnd30 : (((get_videos_without_summaries db).take 30).map (·.id)).Nodup :=
      hnd.sublist hsub
    exact (stage3Go_item o model ((get_videos_without_summaries db).take 30)
      db errors processed v hv hnd30 hcount text htext).2 st kp hok
  · intro o model db errors processed
    exact stage3Go_processed o model ((get_videos_without_summaries db).take 30)
      db errors processed

/-- An oracle whose summarization succeeds and whose queue inserts never
raise. -/
def okSummOracle : CycleOracle :=
  { init_result := Except.ok (),
    fetch_videos := fun _ => Except.ok [],
    transcript_result := fun _ => TranscriptOutcome.unavailable,
    summarize := fun _ _ => Except.ok ("s".data, []),
    enqueue_raises := fun _ => false }

theorem c4_summary_durability_witness :
    summaryCountFor
        (stage3Go okSummOracle "m".data
          ((get_videos_without_summaries backlogDB).take 30) backlogDB [] 0).1
        sampleVideo7.id = 1 :=
  c4_summary_durability_and_fanout.1 okSummOracle "m".data backlogDB [] 0
    sampleVideo7 (by decide) (by decide) "hello".data rfl "s".data [] rfl

/-- First subscriber of the counterexample scenario. -/
def notifyUser1 : UserRec :=
  { id := 1, username := "alice".data, telegram_chat_id := some "c1".data,
    telegram_enabled := true }

/-- Second subscriber of the counterexample scenario. -/
def notifyUser2 : UserRec :=
  { id := 2, username := "bob".data, telegram_chat_id := some "c2".data,
    telegram_enabled := true }

/-- The video awaiting summarization in the counterexample scenario. -/
def notifyVideo : VideoRec :=
  { id := 1, video_id := "v1".data, youtube_channel_id := 1, title := "t".data,
    published_at := 0, duration := none, url := "u".data, failed_attempts := 0 }

/-- A store with one channel, one transcribed unsummarized video, and two
notifiable subscribers of that channel. -/
def notifyDB : DB :=
  { emptyDB with
    channels := [sampleChannel],
    videos := [notifyVideo],
    transcripts := [{ id := 1, video_id := 1, transcript_text := "hello".data,
                      language := none }],
    users := [notifyUser1, notifyUser2],
    user_channels := [(1, 1), (2, 1)] }

/-- An oracle whose summarization succeeds but whose queue insert raises
for the first subscriber's chat id only. -/
def enqueueFailOracle : CycleOracle :=
  { init_result := Except.ok (),
    fetch_videos := fun _ => Except.ok [],
    transcript_result := fun _ => TranscriptOutcome.unavailable,
    summarize := fun _ _ => Except.ok ("s".data, []),
    enqueue_raises := fun c => c == "c1".data }

/-- Refutation of claim C4 as stated: both subscribers are enumerated and
eligible, only the first subscriber's enqueue raises, yet after the cycle
the queue is empty — the failure prevented the second subscriber's
notification (while the summary row persisted and the video was counted
as processed). -/
theorem c4_notification_abort_counterexample :
    (get_users_for_telegram_notification notifyDB 1).length = 2 ∧
    chatTruthy notifyUser1 = true ∧
    chatTruthy notifyUser2 = true ∧
    enqueueFailOracle.enqueue_raises "c2".data = false ∧
    (checkAndProcess enqueueFailOracle "m".data notifyDB 0 0).1.videos_processed = 1 ∧
    (checkAndProcess enqueueFailOracle "m".data notifyDB 0 0).2.summaries.length = 1 ∧
    (checkAndProcess enqueueFailOracle "m".data notifyDB 0 0).2.queue.length = 0 :=
  ⟨rfl, rfl, rfl, rfl, rfl, rfl, rfl⟩
